import Mathlib

/-!
# Thread-state codec and thread-stack hash onion (`cannon/mipsevm/multithreaded/thread.go`)

A shallow embedding of the Go file `thread.go`.

* Machine integers (`uint8`, `uint32`, `uint64`) are natural numbers; the Go
  types are recovered by the predicate `ThreadState.WellTyped`, and every
  narrowing conversion `byte(x)` is an explicit `% 256`.
* A byte slice is a `List Nat` of values below 256.
* An `io.Reader` is an in-memory byte stream: the list of bytes not yet read.
* The receiver `*ThreadState` of `Deserialize` is mutated in place, so the
  embedding returns the receiver after the call together with the error and the
  stream that is left.
-/

namespace Multithreaded

set_option autoImplicit false

/-! ## Constants -/

/-- The constant `SERIALIZED_THREAD_SIZE`: the size of a serialized `ThreadState`. -/
def SERIALIZED_THREAD_SIZE : Nat := 166

/-- The constant `THREAD_WITNESS_SIZE`: the serialized active thread followed by
the 32 byte hash onion of the rest of the thread stack. -/
def THREAD_WITNESS_SIZE : Nat := SERIALIZED_THREAD_SIZE + 32

/-! ## Data model -/

/-- Modelled from the spec: the struct `mipsevm.CpuScalars`, declared outside the
files at hand. The spec lists its fields as the program counter, the next
program counter and the two auxiliary arithmetic registers; `thread.go` reads and
writes all four as `uint32`. -/
structure CpuScalars where
  PC : Nat
  NextPC : Nat
  LO : Nat
  HI : Nat
deriving DecidableEq, Repr

/-- The struct `ThreadState`. `Registers` is the array `[32]uint32`. -/
structure ThreadState where
  ThreadId : Nat
  ExitCode : Nat
  Exited : Bool
  FutexAddr : Nat
  FutexVal : Nat
  FutexTimeoutStep : Nat
  Cpu : CpuScalars
  Registers : List Nat
deriving DecidableEq, Repr

/-- The values of the Go type `ThreadState`: every field is in the range of its
machine type and the register file has exactly 32 entries. -/
def ThreadState.WellTyped (t : ThreadState) : Prop :=
  t.ThreadId < 2 ^ 32 ∧ t.ExitCode < 2 ^ 8 ∧ t.FutexAddr < 2 ^ 32 ∧ t.FutexVal < 2 ^ 32 ∧
  t.FutexTimeoutStep < 2 ^ 64 ∧
  t.Cpu.PC < 2 ^ 32 ∧ t.Cpu.NextPC < 2 ^ 32 ∧ t.Cpu.LO < 2 ^ 32 ∧ t.Cpu.HI < 2 ^ 32 ∧
  t.Registers.length = 32 ∧ ∀ r ∈ t.Registers, r < 2 ^ 32

instance (t : ThreadState) : Decidable t.WellTyped := by
  unfold ThreadState.WellTyped
  infer_instance

/-- The values of a Go byte slice: every entry is a byte. -/
def IsBytes (bs : List Nat) : Prop := ∀ b ∈ bs, b < 256

instance (bs : List Nat) : Decidable (IsBytes bs) := by
  unfold IsBytes
  infer_instance

/-- The function `CreateEmptyThread`. The constant `exec.FutexEmptyAddr` is
declared outside the files at hand and is taken as a parameter. -/
def CreateEmptyThread (FutexEmptyAddr : Nat) : ThreadState :=
  let initThreadId := 0
  { ThreadId := initThreadId
    ExitCode := 0
    Exited := false
    Cpu := { PC := 0, NextPC := 4, LO := 0, HI := 0 }
    FutexAddr := FutexEmptyAddr
    FutexVal := 0
    FutexTimeoutStep := 0
    Registers := List.replicate 32 0 }

/-! ## Encoder -/

/-- The library function `binary.BigEndian.AppendUint32`:
`append(b, byte(v>>24), byte(v>>16), byte(v>>8), byte(v))`. -/
def AppendUint32 (b : List Nat) (v : Nat) : List Nat :=
  b ++ [v / 2 ^ 24 % 256, v / 2 ^ 16 % 256, v / 2 ^ 8 % 256, v % 256]

/-- The library function `binary.BigEndian.AppendUint64`:
`append(b, byte(v>>56), byte(v>>48), ..., byte(v>>8), byte(v))`. -/
def AppendUint64 (b : List Nat) (v : Nat) : List Nat :=
  b ++ [v / 2 ^ 56 % 256, v / 2 ^ 48 % 256, v / 2 ^ 40 % 256, v / 2 ^ 32 % 256,
        v / 2 ^ 24 % 256, v / 2 ^ 16 % 256, v / 2 ^ 8 % 256, v % 256]

/-- Modelled from the spec: the helper `mipsevm.AppendBoolToWitness`, defined
outside the files at hand. The spec: a boolean encodes as a single byte, `0x00`
for false, and the encoder always emits `0x01` for true. -/
def AppendBoolToWitness (witnessData : List Nat) (boolVal : Bool) : List Nat :=
  if boolVal then witnessData ++ [1] else witnessData ++ [0]

/-- The method `serializeThread`. -/
def serializeThread (t : ThreadState) : List Nat :=
  let out : List Nat := []
  let out := AppendUint32 out t.ThreadId
  let out := out ++ [t.ExitCode]
  let out := AppendBoolToWitness out t.Exited
  let out := AppendUint32 out t.FutexAddr
  let out := AppendUint32 out t.FutexVal
  let out := AppendUint64 out t.FutexTimeoutStep
  let out := AppendUint32 out t.Cpu.PC
  let out := AppendUint32 out t.Cpu.NextPC
  let out := AppendUint32 out t.Cpu.LO
  let out := AppendUint32 out t.Cpu.HI
  t.Registers.foldl AppendUint32 out

/-- An `io.Writer` whose state is a value of `σ` and whose errors are values of
`ε`: `Write(p)` returns the number of bytes written and an error (`none` for
`nil`), and leaves the writer in a new state. -/
structure Writer (σ ε : Type) where
  Write : σ → List Nat → Nat × Option ε × σ

/-- The method `Serialize`, called with the writer `out` in the state `w`:
`_, err := out.Write(t.serializeThread()); return err`. The result is the error
returned and the writer after the call. -/
def Serialize {σ ε : Type} (t : ThreadState) (out : Writer σ ε) (w : σ) : Option ε × σ :=
  match out.Write w (serializeThread t) with
  | (_, err, w) => (err, w)

/-- A writer that keeps the list of the slices it was handed, one entry for
every call of `Write`, and answers the slice `p` with the error `e p`. -/
def recordingWriter {ε : Type} (e : List Nat → Option ε) : Writer (List (List Nat)) ε :=
  ⟨fun log p => (p.length, e p, log ++ [p])⟩

/-! ## Decoder -/

/-- The two errors of `io.ReadFull` on an in-memory stream. -/
inductive ReadError where
  | EOF
  | ErrUnexpectedEOF
deriving DecidableEq, Repr

/-- The library function `io.ReadFull(r, buf)` with `len(buf) = n`, on an
in-memory stream `r`: the `n` bytes read and the stream that is left, or `EOF`
when no byte was there, or `ErrUnexpectedEOF` when the stream ended after fewer
than `n` bytes (which have then been consumed). -/
def ReadFull (r : List Nat) (n : Nat) : Except ReadError (List Nat) × List Nat :=
  if n ≤ r.length then (.ok (r.take n), r.drop n)
  else if r.length = 0 then (.error .EOF, [])
  else (.error .ErrUnexpectedEOF, [])

/-- The big-endian value of a byte slice: `binary.BigEndian.Uint32` on four
bytes, `binary.BigEndian.Uint64` on eight, the byte itself on one. -/
def BigEndianUint (bs : List Nat) : Nat := bs.foldl (fun acc b => acc * 256 + b) 0

/-- What a call of `Deserialize` leaves behind: the error returned (`none` for
`nil`), the receiver after the call, and the unread rest of the stream. -/
structure Outcome where
  err : Option ReadError
  t : ThreadState
  rest : List Nat
deriving DecidableEq, Repr

/-- One statement
`if err := binary.Read(in, binary.BigEndian, &field); err != nil { return err }`
followed by the rest `k` of the function body. `binary.Read` reads `width` bytes
with `io.ReadFull`, returns its error without touching the field, and otherwise
stores the decoded value (`store`). -/
def readField (width : Nat) (store : ThreadState → Nat → ThreadState)
    (k : ThreadState → List Nat → Outcome) (t : ThreadState) (r : List Nat) : Outcome :=
  match ReadFull r width with
  | (.error e, r) => ⟨some e, t, r⟩
  | (.ok bs, r) => k (store t (BigEndianUint bs)) r

/-- The loop `for i := range t.Registers { binary.Read(..., &t.Registers[i]) }`
from index `i`, with `n` iterations to go, and the final `return nil`. -/
def readRegisters : Nat → Nat → ThreadState → List Nat → Outcome
  | 0, _, t, r => ⟨none, t, r⟩
  | n + 1, i, t, r =>
    readField 4 (fun t v => { t with Registers := t.Registers.set i v })
      (readRegisters n (i + 1)) t r

/-- The method `Deserialize`, called on the receiver `t` with the stream `r`. -/
def Deserialize (t : ThreadState) (r : List Nat) : Outcome :=
  readField 4 (fun t v => { t with ThreadId := v }) (
  readField 1 (fun t v => { t with ExitCode := v }) (
  readField 1 (fun t exited => { t with Exited := exited != 0 }) (
  readField 4 (fun t v => { t with FutexAddr := v }) (
  readField 4 (fun t v => { t with FutexVal := v }) (
  readField 8 (fun t v => { t with FutexTimeoutStep := v }) (
  readField 4 (fun t v => { t with Cpu := { t.Cpu with PC := v } }) (
  readField 4 (fun t v => { t with Cpu := { t.Cpu with NextPC := v } }) (
  readField 4 (fun t v => { t with Cpu := { t.Cpu with LO := v } }) (
  readField 4 (fun t v => { t with Cpu := { t.Cpu with HI := v } }) (
  readRegisters 32 0)))))))))) t r


/-! ## Hash onion

`crypto.Keccak256Hash` is the go-ethereum library function: Keccak-256, that is
the sponge over the permutation Keccak-f[1600] with rate 136 bytes, the original
Keccak padding (`0x01 ... 0x80`) and a 32 byte output. The state is the list of
its 25 lanes, lane `(x, y)` at index `x + 5 * y`, each lane a 64 bit word. -/

/-- Rotation of a 64 bit word to the left by `n < 64` bits. -/
def rotl64 (x n : Nat) : Nat := ((x <<< n) ||| (x >>> (64 - n))) % 2 ^ 64

/-- The 24 round constants of Keccak-f[1600], one line for every four rounds. -/
def keccakRC : List Nat :=
  [0x1, 0x8082, 0x800000000000808A, 0x8000000080008000,
   0x808B, 0x80000001, 0x8000000080008081, 0x8000000000008009,
   0x8A, 0x88, 0x80008009, 0x8000000A,
   0x8000808B, 0x800000000000008B, 0x8000000000008089, 0x8000000000008003,
   0x8000000000008002, 0x8000000000000080, 0x800A, 0x800000008000000A,
   0x8000000080008081, 0x8000000000008080, 0x80000001, 0x8000000080008008]

/-- The rotation offsets of the step rho: row `y` holds the offsets of the lanes
`(0, y)` to `(4, y)`. -/
def keccakRot : List (List Nat) :=
  [[0, 1, 62, 28, 27],
   [36, 44, 6, 55, 20],
   [3, 10, 43, 25, 39],
   [41, 45, 15, 21, 8],
   [18, 2, 61, 56, 14]]

/-- The step theta: every lane is xored with the parities of two columns. -/
def keccakTheta (a : List Nat) : List Nat :=
  let c := (List.range 5).map fun x =>
    a.getD x 0 ^^^ a.getD (x + 5) 0 ^^^ a.getD (x + 10) 0 ^^^ a.getD (x + 15) 0 ^^^
      a.getD (x + 20) 0
  let d := (List.range 5).map fun x =>
    c.getD ((x + 4) % 5) 0 ^^^ rotl64 (c.getD ((x + 1) % 5) 0) 1
  (List.range 25).map fun i => a.getD i 0 ^^^ d.getD (i % 5) 0

/-- The steps rho and pi: lane `(x, y)` is rotated by its offset and moved to
`(y, 2x + 3y)`; so the lane that lands at `(X, Y)` comes from `((X + 3Y) mod 5, X)`. -/
def keccakRhoPi (a : List Nat) : List Nat :=
  (List.range 25).map fun i =>
    let X := i % 5
    let Y := i / 5
    let x := (X + 3 * Y) % 5
    let y := X
    rotl64 (a.getD (x + 5 * y) 0) ((keccakRot.getD y []).getD x 0)

/-- The step chi: the nonlinear mixing of every row. -/
def keccakChi (b : List Nat) : List Nat :=
  (List.range 25).map fun i =>
    let X := i % 5
    let Y := i / 5
    b.getD i 0 ^^^
      ((b.getD ((X + 1) % 5 + 5 * Y) 0 ^^^ (2 ^ 64 - 1)) &&& b.getD ((X + 2) % 5 + 5 * Y) 0)

/-- The step iota: the round constant is xored into lane `(0, 0)`. -/
def keccakIota (rc : Nat) (a : List Nat) : List Nat :=
  match a with
  | [] => []
  | h :: t => (h ^^^ rc) :: t

/-- One round of Keccak-f[1600]. -/
def keccakRound (a : List Nat) (rc : Nat) : List Nat :=
  keccakIota rc (keccakChi (keccakRhoPi (keccakTheta a)))

/-- The permutation Keccak-f[1600]: 24 rounds. -/
def keccakF (a : List Nat) : List Nat := keccakRC.foldl keccakRound a

/-- The little-endian value of a byte slice. -/
def le64 (bs : List Nat) : Nat := bs.foldr (fun b acc => b + 256 * acc) 0

/-- The first `n` lanes of a byte slice, 8 bytes to a lane. -/
def lanes : Nat → List Nat → List Nat
  | 0, _ => []
  | n + 1, bs => le64 (bs.take 8) :: lanes n (bs.drop 8)

/-- The state with a block xored into its first lanes. -/
def xorLanes : List Nat → List Nat → List Nat
  | [], _ => []
  | a :: as, [] => a :: as
  | a :: as, b :: bs => (a ^^^ b) :: xorLanes as bs

/-- The Keccak padding to a multiple of the rate, 136 bytes. -/
def keccakPad (m : List Nat) : List Nat :=
  let q := 136 - m.length % 136
  if q = 1 then m ++ [0x81] else m ++ [0x01] ++ List.replicate (q - 2) 0 ++ [0x80]

/-- The absorbing phase over `n` blocks of 136 bytes. -/
def absorb : Nat → List Nat → List Nat → List Nat
  | 0, st, _ => st
  | n + 1, st, bs => absorb n (keccakF (xorLanes st (lanes 17 (bs.take 136)))) (bs.drop 136)

/-- The library function `crypto.Keccak256Hash`: the 32 byte Keccak-256 digest. -/
def Keccak256Hash (m : List Nat) : List Nat :=
  let p := keccakPad m
  let st := absorb (p.length / 136) (List.replicate 25 0) p
  (List.range 32).map fun i => (st.getD (i / 8) 0 >>> (8 * (i % 8))) % 256

/-- The library function `common.HexToHash` on a hexadecimal literal of at most
64 digits, given by its value: the 32 bytes of the number, most significant
first. -/
def HexToHash (n : Nat) : List Nat :=
  (List.range 32).map fun i => n / 256 ^ (31 - i) % 256

/-- The variable `EmptyThreadsRoot`. -/
def EmptyThreadsRoot : List Nat :=
  HexToHash 0xad3228b676f7d3cd4284a5443f17f1962b36e491b30a40b2405849e597ba5fb5

/-- The function `computeThreadRoot`. A `common.Hash` is a list of 32 bytes. -/
def computeThreadRoot (prevStackRoot : List Nat) (threadToPush : ThreadState) : List Nat :=
  let hashedThread := Keccak256Hash (serializeThread threadToPush)
  let hashData : List Nat := []
  let hashData := hashData ++ prevStackRoot
  let hashData := hashData ++ hashedThread
  Keccak256Hash hashData

/-- The assumption of collision-freeness for the two byte strings `a` and `b`:
if their Keccak-256 digests agree, they are the same string. -/
def CollisionFree (a b : List Nat) : Prop := Keccak256Hash a = Keccak256Hash b → a = b

instance (a b : List Nat) : Decidable (CollisionFree a b) := by
  unfold CollisionFree
  infer_instance

/-! ## Sample records -/

/-- A thread state at the upper bound of every field. -/
def boundaryThread : ThreadState :=
  { ThreadId := 0xFFFFFFFF
    ExitCode := 255
    Exited := true
    FutexAddr := 0xFFFFFFFF
    FutexVal := 0xFFFFFFFF
    FutexTimeoutStep := 0xFFFFFFFFFFFFFFFF
    Cpu := { PC := 0xFFFFFFFF, NextPC := 0xFFFFFFFF, LO := 0xFFFFFFFF, HI := 0xFFFFFFFF }
    Registers := List.replicate 32 0xFFFFFFFF }

/-- The thread of the end-to-end scenario of the specification: an empty thread
(here with the sentinel `0xFFFFFFFF`) with thread id 1, program counter `0x1000`
and the value `v` in register 2. -/
def scenarioThread (v : Nat) : ThreadState :=
  let t := CreateEmptyThread 0xFFFFFFFF
  { t with ThreadId := 1, Cpu := { t.Cpu with PC := 0x1000 }, Registers := t.Registers.set 2 v }

/-! ## Definitions that follow the words of the specification -/

/-- The big-endian encoding of `v` on `n` bytes, as the specification words it:
the most significant byte first. -/
def bigEndian (n v : Nat) : List Nat :=
  (List.range n).map fun k => v / 256 ^ (n - 1 - k) % 256

/-- The encoding of a boolean, as the specification words it: `0x01` for true,
`0x00` for false. -/
def boolByte (b : Bool) : Nat := if b then 0x01 else 0x00

/-- The value of the field of `w` bytes at offset `off` of the byte string `r`,
read big-endian. -/
def fieldAt (r : List Nat) (off w : Nat) : Nat := BigEndianUint ((r.drop off).take w)

/-- The first `n` registers of a byte string: 4 bytes each, big-endian. -/
def decodeRegisters : Nat → List Nat → List Nat
  | 0, _ => []
  | n + 1, r => BigEndianUint (r.take 4) :: decodeRegisters n (r.drop 4)

/-- The record that the layout of the specification assigns to a byte string:
every field read big-endian at its offset, the boolean true for a nonzero byte. -/
def decodedThread (r : List Nat) : ThreadState :=
  { ThreadId := fieldAt r 0 4
    ExitCode := fieldAt r 4 1
    Exited := fieldAt r 5 1 != 0
    FutexAddr := fieldAt r 6 4
    FutexVal := fieldAt r 10 4
    FutexTimeoutStep := fieldAt r 14 8
    Cpu := { PC := fieldAt r 22 4, NextPC := fieldAt r 26 4, LO := fieldAt r 30 4,
             HI := fieldAt r 34 4 }
    Registers := decodeRegisters 32 (r.drop 38) }

/-- The widths of the fields in layout order: ThreadId, ExitCode, Exited,
FutexAddr, FutexVal, FutexTimeoutStep, PC, NextPC, LO, HI and the 32 registers. -/
def fieldWidths : List Nat := [4, 1, 1, 4, 4, 8, 4, 4, 4, 4] ++ List.replicate 32 4

/-- The lengths at which a truncated input ends exactly where a field begins. -/
def fieldBoundaries : List Nat :=
  [0, 4, 5, 6, 10, 14, 22, 26, 30, 34] ++ (List.range 32).map fun i => 38 + 4 * i

/-- The error of reading fields of the given widths, one after the other, from
`n` bytes: none when all fields are there, `EOF` when the bytes end where a
field begins, `ErrUnexpectedEOF` when they end inside a field. -/
def truncationError : List Nat → Nat → Option ReadError
  | [], _ => none
  | w :: ws, n =>
    if w ≤ n then truncationError ws (n - w)
    else some (if n = 0 then .EOF else .ErrUnexpectedEOF)

/-- The byte string `b` with the byte at offset 5 made canonical: `0x01` when it
is nonzero, `0x00` otherwise. -/
def canonicalBytes (b : List Nat) : List Nat := b.set 5 (boolByte (b.getD 5 0 != 0))

/-- The encoding of the empty thread as the claim words it: zero everywhere
except the bytes 6 to 9, the big-endian sentinel, and the bytes 26 to 29,
`00 00 00 04`. -/
def emptyThreadBytes (FutexEmptyAddr : Nat) : List Nat :=
  List.replicate 6 0 ++ bigEndian 4 FutexEmptyAddr ++ List.replicate 16 0 ++ [0, 0, 0, 4] ++
    List.replicate 136 0


/-! ## The encoder: size and layout -/

theorem AppendUint32_eq (b : List Nat) (v : Nat) : AppendUint32 b v = b ++ bigEndian 4 v := by
  simp [AppendUint32, bigEndian, List.range_succ]

theorem AppendUint64_eq (b : List Nat) (v : Nat) : AppendUint64 b v = b ++ bigEndian 8 v := by
  simp [AppendUint64, bigEndian, List.range_succ]

theorem AppendBoolToWitness_eq (b : List Nat) (x : Bool) :
    AppendBoolToWitness b x = b ++ [boolByte x] := by
  cases x <;> rfl

theorem bigEndian_length (n v : Nat) : (bigEndian n v).length = n := by
  simp [bigEndian]

theorem foldl_AppendUint32 (rs : List Nat) (out : List Nat) :
    rs.foldl AppendUint32 out = out ++ rs.flatMap (bigEndian 4) := by
  induction rs generalizing out with
  | nil => simp
  | cons v rs ih => simp [List.foldl_cons, ih, AppendUint32_eq, List.flatMap_cons]

theorem flatMap_bigEndian_length (rs : List Nat) :
    (rs.flatMap (bigEndian 4)).length = 4 * rs.length := by
  induction rs with
  | nil => simp
  | cons v rs ih => simp [List.flatMap_cons, bigEndian_length, ih]; omega

/-- The encoding as one concatenation, nested to the right. -/
theorem serializeThread_eq (t : ThreadState) :
    serializeThread t =
      bigEndian 4 t.ThreadId ++ ([t.ExitCode] ++ ([boolByte t.Exited] ++
      (bigEndian 4 t.FutexAddr ++ (bigEndian 4 t.FutexVal ++
      (bigEndian 8 t.FutexTimeoutStep ++
      (bigEndian 4 t.Cpu.PC ++ (bigEndian 4 t.Cpu.NextPC ++
      (bigEndian 4 t.Cpu.LO ++ (bigEndian 4 t.Cpu.HI ++
      t.Registers.flatMap (bigEndian 4)))))))))) := by
  simp only [serializeThread, foldl_AppendUint32, AppendUint32_eq, AppendUint64_eq,
    AppendBoolToWitness_eq, List.nil_append, List.append_assoc]

theorem serializeThread_length_of (t : ThreadState) (h : t.Registers.length = 32) :
    (serializeThread t).length = 166 := by
  rw [serializeThread_eq]
  simp only [List.length_append, bigEndian_length, flatMap_bigEndian_length, h,
    List.length_cons, List.length_nil]


theorem drop_flatMap_bigEndian (rs : List Nat) (i : Nat) :
    (rs.flatMap (bigEndian 4)).drop (4 * i) = (rs.drop i).flatMap (bigEndian 4) := by
  induction i generalizing rs with
  | zero => simp
  | succ i ih =>
    cases rs with
    | nil => simp
    | cons v rs =>
      have h : 4 * (i + 1) = (bigEndian 4 v).length + 4 * i := by
        rw [bigEndian_length]; omega
      rw [List.flatMap_cons, h, List.drop_append, ih]
      simp

theorem take_drop_flatMap_bigEndian (rs : List Nat) (i : Nat) (hi : i < rs.length) :
    ((rs.flatMap (bigEndian 4)).drop (4 * i)).take 4 = bigEndian 4 (rs.getD i 0) := by
  rw [drop_flatMap_bigEndian, List.drop_eq_getElem_cons hi, List.flatMap_cons]
  have h : (bigEndian 4 rs[i]).length = 4 := bigEndian_length 4 _
  rw [List.take_left' h]
  simp [List.getD_eq_getElem?_getD, hi]

theorem drop_append_of_length {α : Type} (a b : List α) (n m : Nat) (h : a.length = n) :
    (a ++ b).drop (n + m) = b.drop m := by
  subst h; exact List.drop_append m

/-- C2. Fixed size: the encoding of every thread state has exactly
`SERIALIZED_THREAD_SIZE` = 166 bytes, whatever the values of its fields. -/
theorem serializeThread_fixed_size (r : ThreadState) (h : r.WellTyped) :
    (serializeThread r).length = SERIALIZED_THREAD_SIZE ∧ SERIALIZED_THREAD_SIZE = 166 :=
  ⟨serializeThread_length_of r h.2.2.2.2.2.2.2.2.2.1, rfl⟩

theorem serializeThread_fixed_size_witness :
    boundaryThread.WellTyped ∧
    (serializeThread boundaryThread).length = SERIALIZED_THREAD_SIZE ∧
    SERIALIZED_THREAD_SIZE = 166 :=
  ⟨by decide, serializeThread_fixed_size boundaryThread (by decide)⟩

/-- C3. Layout: the encoding of every thread state is the concatenation, in this
order, of the big-endian encodings of ThreadId (4 bytes, offset 0), ExitCode
(1 byte, offset 4), Exited (1 byte, offset 5, 0x01 for true and 0x00 for false),
FutexAddr (offset 6), FutexVal (offset 10), FutexTimeoutStep (8 bytes, offset 14),
PC (offset 22), NextPC (offset 26), LO (offset 30), HI (offset 34) and of
register `i` at offset `38 + 4 * i`, for `i` from 0 to 31. -/
theorem serializeThread_layout (r : ThreadState) (h : r.WellTyped) :
    serializeThread r =
      bigEndian 4 r.ThreadId ++ bigEndian 1 r.ExitCode ++ [boolByte r.Exited] ++
      bigEndian 4 r.FutexAddr ++ bigEndian 4 r.FutexVal ++ bigEndian 8 r.FutexTimeoutStep ++
      bigEndian 4 r.Cpu.PC ++ bigEndian 4 r.Cpu.NextPC ++ bigEndian 4 r.Cpu.LO ++
      bigEndian 4 r.Cpu.HI ++ r.Registers.flatMap (bigEndian 4) ∧
    ((serializeThread r).drop 0).take 4 = bigEndian 4 r.ThreadId ∧
    ((serializeThread r).drop 4).take 1 = bigEndian 1 r.ExitCode ∧
    ((serializeThread r).drop 5).take 1 = [boolByte r.Exited] ∧
    ((serializeThread r).drop 6).take 4 = bigEndian 4 r.FutexAddr ∧
    ((serializeThread r).drop 10).take 4 = bigEndian 4 r.FutexVal ∧
    ((serializeThread r).drop 14).take 8 = bigEndian 8 r.FutexTimeoutStep ∧
    ((serializeThread r).drop 22).take 4 = bigEndian 4 r.Cpu.PC ∧
    ((serializeThread r).drop 26).take 4 = bigEndian 4 r.Cpu.NextPC ∧
    ((serializeThread r).drop 30).take 4 = bigEndian 4 r.Cpu.LO ∧
    ((serializeThread r).drop 34).take 4 = bigEndian 4 r.Cpu.HI ∧
    ∀ i, i < 32 →
      ((serializeThread r).drop (38 + 4 * i)).take 4 = bigEndian 4 (r.Registers.getD i 0) := by
  obtain ⟨-, hec, -, -, -, -, -, -, -, hlen, -⟩ := h
  have h1 : bigEndian 1 r.ExitCode = [r.ExitCode] := by
    simp [bigEndian]; omega
  refine ⟨?_, ?_, ?_, ?_, ?_, ?_, ?_, ?_, ?_, ?_, ?_, ?_⟩
  · rw [serializeThread_eq, h1]; simp only [List.append_assoc]
  case refine_12 =>
    intro i hi
    have e : serializeThread r = (bigEndian 4 r.ThreadId ++ ([r.ExitCode] ++ ([boolByte r.Exited] ++
      (bigEndian 4 r.FutexAddr ++ (bigEndian 4 r.FutexVal ++
      (bigEndian 8 r.FutexTimeoutStep ++
      (bigEndian 4 r.Cpu.PC ++ (bigEndian 4 r.Cpu.NextPC ++
      (bigEndian 4 r.Cpu.LO ++ bigEndian 4 r.Cpu.HI))))))))) ++
      r.Registers.flatMap (bigEndian 4) := by
      rw [serializeThread_eq]; simp only [List.append_assoc]
    rw [e, drop_append_of_length _ _ 38 (4 * i) (by simp [bigEndian_length])]
    exact take_drop_flatMap_bigEndian _ _ (by omega)
  all_goals
    rw [serializeThread_eq, ← h1]
    simp [List.drop_append_eq_append_drop, List.take_append_eq_append_take, bigEndian_length,
      List.drop_eq_nil_of_le, List.take_of_length_le]


theorem serializeThread_layout_witness :
    (scenarioThread 42).WellTyped ∧
    ((serializeThread (scenarioThread 42)).drop 22).take 4 = bigEndian 4 0x1000 ∧
    ((serializeThread (scenarioThread 42)).drop (38 + 4 * 2)).take 4 = [0, 0, 0, 42] :=
  ⟨by decide, (serializeThread_layout (scenarioThread 42) (by decide)).2.2.2.2.2.2.2.1,
    (serializeThread_layout (scenarioThread 42) (by decide)).2.2.2.2.2.2.2.2.2.2.2 2 (by decide)⟩

/-! ## The decoder: one field at a time -/

theorem readField_of_le (w : Nat) (s : ThreadState → Nat → ThreadState)
    (k : ThreadState → List Nat → Outcome) (t : ThreadState) (r : List Nat)
    (h : w ≤ r.length) :
    readField w s k t r = k (s t (BigEndianUint (r.take w))) (r.drop w) := by
  simp [readField, ReadFull, h]

theorem readField_of_lt (w : Nat) (s : ThreadState → Nat → ThreadState)
    (k : ThreadState → List Nat → Outcome) (t : ThreadState) (r : List Nat)
    (h : r.length < w) :
    readField w s k t r =
      ⟨some (if r.length = 0 then .EOF else .ErrUnexpectedEOF), t, []⟩ := by
  have h' : ¬ w ≤ r.length := by omega
  unfold readField ReadFull
  rw [if_neg h']
  by_cases h0 : r.length = 0 <;> simp [h0]

theorem readField_append (w : Nat) (s : ThreadState → Nat → ThreadState)
    (k : ThreadState → List Nat → Outcome) (t : ThreadState) (bs r : List Nat)
    (h : bs.length = w) :
    readField w s k t (bs ++ r) = k (s t (BigEndianUint bs)) r := by
  rw [readField_of_le _ _ _ _ _ (by simp [h]), List.take_left' h, List.drop_left' h]

theorem BigEndianUint_bigEndian_1 (v : Nat) (h : v < 2 ^ 8) :
    BigEndianUint (bigEndian 1 v) = v := by
  simp [BigEndianUint, bigEndian]; omega

theorem BigEndianUint_bigEndian_4 (v : Nat) (h : v < 2 ^ 32) :
    BigEndianUint (bigEndian 4 v) = v := by
  simp [BigEndianUint, bigEndian, List.range_succ]; omega

theorem BigEndianUint_bigEndian_8 (v : Nat) (h : v < 2 ^ 64) :
    BigEndianUint (bigEndian 8 v) = v := by
  simp [BigEndianUint, bigEndian, List.range_succ]; omega

theorem BigEndianUint_boolByte (b : Bool) : (BigEndianUint [boolByte b] != 0) = b := by
  cases b <;> simp [BigEndianUint, boolByte]

/-- The register loop on the encoding of the registers `rs`: they are stored
from index `i` on, and the rest of the stream is left. -/
theorem readRegisters_flatMap (rs : List Nat) (hrs : ∀ v ∈ rs, v < 2 ^ 32) (i : Nat)
    (t : ThreadState) (rest : List Nat) (hi : i + rs.length ≤ t.Registers.length) :
    readRegisters rs.length i t (rs.flatMap (bigEndian 4) ++ rest) =
      ⟨none, { t with Registers :=
        t.Registers.take i ++ rs ++ t.Registers.drop (i + rs.length) }, rest⟩ := by
  induction rs generalizing i t with
  | nil => simp [readRegisters]
  | cons v rs ih =>
    have hv : v < 2 ^ 32 := hrs v (by simp)
    have hrs' : ∀ v ∈ rs, v < 2 ^ 32 := fun v hv => hrs v (by simp [hv])
    simp only [List.length_cons] at hi
    simp only [List.length_cons, readRegisters, List.flatMap_cons, List.append_assoc]
    rw [readField_append _ _ _ _ _ _ (bigEndian_length 4 v), BigEndianUint_bigEndian_4 v hv,
      ih hrs' (i + 1) _ (by simp; omega)]
    have hlt : i < t.Registers.length := by omega
    simp only [List.set_eq_take_append_cons_drop, hlt, if_true]
    have hA : (t.Registers.take i).length = i := by simp; omega
    have e1 : (t.Registers.take i ++ v :: t.Registers.drop (i + 1)).take (i + 1) =
        t.Registers.take i ++ [v] := by
      have := @List.take_append _ (t.Registers.take i) (v :: t.Registers.drop (i + 1)) 1
      rw [hA] at this
      rw [this]; simp
    have e2 : (t.Registers.take i ++ v :: t.Registers.drop (i + 1)).drop (i + 1 + rs.length) =
        t.Registers.drop (i + (rs.length + 1)) := by
      have := @List.drop_append _ (t.Registers.take i) (v :: t.Registers.drop (i + 1))
        (1 + rs.length)
      rw [hA] at this
      rw [show i + 1 + rs.length = i + (1 + rs.length) by omega, this,
        show 1 + rs.length = rs.length + 1 by omega, List.drop_succ_cons, List.drop_drop]
      congr 1; omega
    rw [e1, e2]
    simp


theorem Deserialize_serializeThread_aux (t0 r : ThreadState) (h0 : t0.Registers.length = 32)
    (hr : r.WellTyped) :
    Deserialize t0 (serializeThread r) = ⟨none, r, []⟩ := by
  obtain ⟨h1, h2, h3, h4, h5, h6, h7, h8, h9, hlen, hregs⟩ := hr
  have hE : [r.ExitCode] = bigEndian 1 r.ExitCode := by
    simp [bigEndian]; omega
  rw [serializeThread_eq, hE]
  unfold Deserialize
  simp only [readField_append, bigEndian_length, List.length_singleton,
    BigEndianUint_bigEndian_4, BigEndianUint_bigEndian_1, BigEndianUint_bigEndian_8,
    BigEndianUint_boolByte, h1, h2, h3, h4, h5, h6, h7, h8, h9]
  have key := readRegisters_flatMap r.Registers hregs 0
    { t0 with ThreadId := r.ThreadId, ExitCode := r.ExitCode, Exited := r.Exited,
              FutexAddr := r.FutexAddr, FutexVal := r.FutexVal,
              FutexTimeoutStep := r.FutexTimeoutStep, Cpu := r.Cpu } []
    (by simp [h0, hlen])
  rw [hlen, List.append_nil] at key
  have hd : t0.Registers.drop (0 + 32) = [] := List.drop_eq_nil_of_le (by omega)
  rw [key]
  simp only [List.take_zero, List.nil_append, hd, List.append_nil]


/-! ## The decoder: when it fails and what it leaves untouched -/

theorem readField_err (w : Nat) (s : ThreadState → Nat → ThreadState)
    (k : ThreadState → List Nat → Outcome) (off : Nat)
    (hk : ∀ t r, (k t r).err = none ↔ off ≤ r.length) (t : ThreadState) (r : List Nat) :
    (readField w s k t r).err = none ↔ w + off ≤ r.length := by
  by_cases h : w ≤ r.length
  · rw [readField_of_le _ _ _ _ _ h, hk, List.length_drop]; omega
  · rw [readField_of_lt _ _ _ _ _ (by omega)]
    simp only [reduceCtorEq, false_iff]; omega

theorem readRegisters_err (n i : Nat) (t : ThreadState) (r : List Nat) :
    (readRegisters n i t r).err = none ↔ 4 * n ≤ r.length := by
  induction n generalizing i t r with
  | zero => simp [readRegisters]
  | succ n ih =>
    rw [readRegisters, readField_err 4 _ _ (4 * n) (fun t r => ih (i + 1) t r)]
    omega

theorem Deserialize_err (t : ThreadState) (r : List Nat) :
    (Deserialize t r).err = none ↔ 166 ≤ r.length :=
  readField_err 4 _ _ 162 (readField_err 1 _ _ 161 (readField_err 1 _ _ 160
    (readField_err 4 _ _ 156 (readField_err 4 _ _ 152 (readField_err 8 _ _ 144
    (readField_err 4 _ _ 140 (readField_err 4 _ _ 136 (readField_err 4 _ _ 132
    (readField_err 4 _ _ 128 (readRegisters_err 32 0)))))))))) t r

theorem readField_frame_here (w : Nat) (s : ThreadState → Nat → ThreadState)
    (k : ThreadState → List Nat → Outcome) (t : ThreadState) (r : List Nat)
    (h : r.length < w) : (readField w s k t r).t = t := by
  rw [readField_of_lt _ _ _ _ _ h]

theorem readField_frame_step {α : Type} (g : ThreadState → α) (w : Nat)
    (s : ThreadState → Nat → ThreadState) (k : ThreadState → List Nat → Outcome) (off : Nat)
    (hs : ∀ t v, g (s t v) = g t) (hk : ∀ t r, r.length < off → g (k t r).t = g t)
    (t : ThreadState) (r : List Nat) (h : r.length < w + off) :
    g (readField w s k t r).t = g t := by
  by_cases hw : w ≤ r.length
  · rw [readField_of_le _ _ _ _ _ hw, hk _ _ (by rw [List.length_drop]; omega), hs]
  · rw [readField_frame_here _ _ _ _ _ (by omega)]

/-- The register loop from index `i` leaves register `j` as it was when the
stream ends before the encoding of register `j` does. -/
theorem readRegisters_frame (n i j : Nat) (hij : i ≤ j) (t : ThreadState) (r : List Nat)
    (h : r.length < 4 * (j - i + 1)) :
    (readRegisters n i t r).t.Registers[j]? = t.Registers[j]? := by
  induction n generalizing i t r with
  | zero => simp [readRegisters]
  | succ n ih =>
    rw [readRegisters]
    by_cases hj : i = j
    · subst hj
      rw [readField_frame_here _ _ _ _ _ (by simpa using h)]
    · refine readField_frame_step (fun t => t.Registers[j]?) 4 _ _ (4 * (j - (i + 1) + 1))
        ?_ (fun t r h => ih (i + 1) (by omega) t r h) t r (by omega)
      intro t v
      simp [List.getElem?_set, hj]

theorem Deserialize_frame_ThreadId (t : ThreadState) (r : List Nat) (h : r.length < 4) :
    (Deserialize t r).t.ThreadId = t.ThreadId := by
  unfold Deserialize
  revert t r
  exact fun t r h => congrArg (fun t => t.ThreadId) (readField_frame_here 4 _ _ t r h)

theorem Deserialize_frame_ExitCode (t : ThreadState) (r : List Nat) (h : r.length < 5) :
    (Deserialize t r).t.ExitCode = t.ExitCode := by
  unfold Deserialize
  revert t r
  refine readField_frame_step (fun t => t.ExitCode) 4 _ _ 1 (fun _ _ => rfl) ?_
  exact fun t r h => congrArg (fun t => t.ExitCode) (readField_frame_here 1 _ _ t r h)

theorem Deserialize_frame_Exited (t : ThreadState) (r : List Nat) (h : r.length < 6) :
    (Deserialize t r).t.Exited = t.Exited := by
  unfold Deserialize
  revert t r
  refine readField_frame_step (fun t => t.Exited) 4 _ _ 2 (fun _ _ => rfl) ?_
  refine readField_frame_step (fun t => t.Exited) 1 _ _ 1 (fun _ _ => rfl) ?_
  exact fun t r h => congrArg (fun t => t.Exited) (readField_frame_here 1 _ _ t r h)

theorem Deserialize_frame_FutexAddr (t : ThreadState) (r : List Nat) (h : r.length < 10) :
    (Deserialize t r).t.FutexAddr = t.FutexAddr := by
  unfold Deserialize
  revert t r
  refine readField_frame_step (fun t => t.FutexAddr) 4 _ _ 6 (fun _ _ => rfl) ?_
  refine readField_frame_step (fun t => t.FutexAddr) 1 _ _ 5 (fun _ _ => rfl) ?_
  refine readField_frame_step (fun t => t.FutexAddr) 1 _ _ 4 (fun _ _ => rfl) ?_
  exact fun t r h => congrArg (fun t => t.FutexAddr) (readField_frame_here 4 _ _ t r h)

theorem Deserialize_frame_FutexVal (t : ThreadState) (r : List Nat) (h : r.length < 14) :
    (Deserialize t r).t.FutexVal = t.FutexVal := by
  unfold Deserialize
  revert t r
  refine readField_frame_step (fun t => t.FutexVal) 4 _ _ 10 (fun _ _ => rfl) ?_
  refine readField_frame_step (fun t => t.FutexVal) 1 _ _ 9 (fun _ _ => rfl) ?_
  refine readField_frame_step (fun t => t.FutexVal) 1 _ _ 8 (fun _ _ => rfl) ?_
  refine readField_frame_step (fun t => t.FutexVal) 4 _ _ 4 (fun _ _ => rfl) ?_
  exact fun t r h => congrArg (fun t => t.FutexVal) (readField_frame_here 4 _ _ t r h)

theorem Deserialize_frame_FutexTimeoutStep (t : ThreadState) (r : List Nat) (h : r.length < 22) :
    (Deserialize t r).t.FutexTimeoutStep = t.FutexTimeoutStep := by
  unfold Deserialize
  revert t r
  refine readField_frame_step (fun t => t.FutexTimeoutStep) 4 _ _ 18 (fun _ _ => rfl) ?_
  refine readField_frame_step (fun t => t.FutexTimeoutStep) 1 _ _ 17 (fun _ _ => rfl) ?_
  refine readField_frame_step (fun t => t.FutexTimeoutStep) 1 _ _ 16 (fun _ _ => rfl) ?_
  refine readField_frame_step (fun t => t.FutexTimeoutStep) 4 _ _ 12 (fun _ _ => rfl) ?_
  refine readField_frame_step (fun t => t.FutexTimeoutStep) 4 _ _ 8 (fun _ _ => rfl) ?_
  exact fun t r h => congrArg (fun t => t.FutexTimeoutStep) (readField_frame_here 8 _ _ t r h)

theorem Deserialize_frame_PC (t : ThreadState) (r : List Nat) (h : r.length < 26) :
    (Deserialize t r).t.Cpu.PC = t.Cpu.PC := by
  unfold Deserialize
  revert t r
  refine readField_frame_step (fun t => t.Cpu.PC) 4 _ _ 22 (fun _ _ => rfl) ?_
  refine readField_frame_step (fun t => t.Cpu.PC) 1 _ _ 21 (fun _ _ => rfl) ?_
  refine readField_frame_step (fun t => t.Cpu.PC) 1 _ _ 20 (fun _ _ => rfl) ?_
  refine readField_frame_step (fun t => t.Cpu.PC) 4 _ _ 16 (fun _ _ => rfl) ?_
  refine readField_frame_step (fun t => t.Cpu.PC) 4 _ _ 12 (fun _ _ => rfl) ?_
  refine readField_frame_step (fun t => t.Cpu.PC) 8 _ _ 4 (fun _ _ => rfl) ?_
  exact fun t r h => congrArg (fun t => t.Cpu.PC) (readField_frame_here 4 _ _ t r h)

theorem Deserialize_frame_NextPC (t : ThreadState) (r : List Nat) (h : r.length < 30) :
    (Deserialize t r).t.Cpu.NextPC = t.Cpu.NextPC := by
  unfold Deserialize
  revert t r
  refine readField_frame_step (fun t => t.Cpu.NextPC) 4 _ _ 26 (fun _ _ => rfl) ?_
  refine readField_frame_step (fun t => t.Cpu.NextPC) 1 _ _ 25 (fun _ _ => rfl) ?_
  refine readField_frame_step (fun t => t.Cpu.NextPC) 1 _ _ 24 (fun _ _ => rfl) ?_
  refine readField_frame_step (fun t => t.Cpu.NextPC) 4 _ _ 20 (fun _ _ => rfl) ?_
  refine readField_frame_step (fun t => t.Cpu.NextPC) 4 _ _ 16 (fun _ _ => rfl) ?_
  refine readField_frame_step (fun t => t.Cpu.NextPC) 8 _ _ 8 (fun _ _ => rfl) ?_
  refine readField_frame_step (fun t => t.Cpu.NextPC) 4 _ _ 4 (fun _ _ => rfl) ?_
  exact fun t r h => congrArg (fun t => t.Cpu.NextPC) (readField_frame_here 4 _ _ t r h)

theorem Deserialize_frame_LO (t : ThreadState) (r : List Nat) (h : r.length < 34) :
    (Deserialize t r).t.Cpu.LO = t.Cpu.LO := by
  unfold Deserialize
  revert t r
  refine readField_frame_step (fun t => t.Cpu.LO) 4 _ _ 30 (fun _ _ => rfl) ?_
  refine readField_frame_step (fun t => t.Cpu.LO) 1 _ _ 29 (fun _ _ => rfl) ?_
  refine readField_frame_step (fun t => t.Cpu.LO) 1 _ _ 28 (fun _ _ => rfl) ?_
  refine readField_frame_step (fun t => t.Cpu.LO) 4 _ _ 24 (fun _ _ => rfl) ?_
  refine readField_frame_step (fun t => t.Cpu.LO) 4 _ _ 20 (fun _ _ => rfl) ?_
  refine readField_frame_step (fun t => t.Cpu.LO) 8 _ _ 12 (fun _ _ => rfl) ?_
  refine readField_frame_step (fun t => t.Cpu.LO) 4 _ _ 8 (fun _ _ => rfl) ?_
  refine readField_frame_step (fun t => t.Cpu.LO) 4 _ _ 4 (fun _ _ => rfl) ?_
  exact fun t r h => congrArg (fun t => t.Cpu.LO) (readField_frame_here 4 _ _ t r h)

theorem Deserialize_frame_HI (t : ThreadState) (r : List Nat) (h : r.length < 38) :
    (Deserialize t r).t.Cpu.HI = t.Cpu.HI := by
  unfold Deserialize
  revert t r
  refine readField_frame_step (fun t => t.Cpu.HI) 4 _ _ 34 (fun _ _ => rfl) ?_
  refine readField_frame_step (fun t => t.Cpu.HI) 1 _ _ 33 (fun _ _ => rfl) ?_
  refine readField_frame_step (fun t => t.Cpu.HI) 1 _ _ 32 (fun _ _ => rfl) ?_
  refine readField_frame_step (fun t => t.Cpu.HI) 4 _ _ 28 (fun _ _ => rfl) ?_
  refine readField_frame_step (fun t => t.Cpu.HI) 4 _ _ 24 (fun _ _ => rfl) ?_
  refine readField_frame_step (fun t => t.Cpu.HI) 8 _ _ 16 (fun _ _ => rfl) ?_
  refine readField_frame_step (fun t => t.Cpu.HI) 4 _ _ 12 (fun _ _ => rfl) ?_
  refine readField_frame_step (fun t => t.Cpu.HI) 4 _ _ 8 (fun _ _ => rfl) ?_
  refine readField_frame_step (fun t => t.Cpu.HI) 4 _ _ 4 (fun _ _ => rfl) ?_
  exact fun t r h => congrArg (fun t => t.Cpu.HI) (readField_frame_here 4 _ _ t r h)

theorem Deserialize_frame_Registers (t : ThreadState) (r : List Nat) (j : Nat)
    (h : r.length < 42 + 4 * j) :
    (Deserialize t r).t.Registers[j]? = t.Registers[j]? := by
  replace h : r.length <
      4 + (1 + (1 + (4 + (4 + (8 + (4 + (4 + (4 + (4 + 4 * (j - 0 + 1)))))))))) := by
    omega
  unfold Deserialize
  revert t r
  refine readField_frame_step (fun t => t.Registers[j]?) 4 _ _ (1 + (1 + (4 + (4 + (8 + (4 + (4 + (4 + (4 + (4 * (j - 0 + 1))))))))))) (fun _ _ => rfl) ?_
  refine readField_frame_step (fun t => t.Registers[j]?) 1 _ _ (1 + (4 + (4 + (8 + (4 + (4 + (4 + (4 + (4 * (j - 0 + 1)))))))))) (fun _ _ => rfl) ?_
  refine readField_frame_step (fun t => t.Registers[j]?) 1 _ _ (4 + (4 + (8 + (4 + (4 + (4 + (4 + (4 * (j - 0 + 1))))))))) (fun _ _ => rfl) ?_
  refine readField_frame_step (fun t => t.Registers[j]?) 4 _ _ (4 + (8 + (4 + (4 + (4 + (4 + (4 * (j - 0 + 1)))))))) (fun _ _ => rfl) ?_
  refine readField_frame_step (fun t => t.Registers[j]?) 4 _ _ (8 + (4 + (4 + (4 + (4 + (4 * (j - 0 + 1))))))) (fun _ _ => rfl) ?_
  refine readField_frame_step (fun t => t.Registers[j]?) 8 _ _ (4 + (4 + (4 + (4 + (4 * (j - 0 + 1)))))) (fun _ _ => rfl) ?_
  refine readField_frame_step (fun t => t.Registers[j]?) 4 _ _ (4 + (4 + (4 + (4 * (j - 0 + 1))))) (fun _ _ => rfl) ?_
  refine readField_frame_step (fun t => t.Registers[j]?) 4 _ _ (4 + (4 + (4 * (j - 0 + 1)))) (fun _ _ => rfl) ?_
  refine readField_frame_step (fun t => t.Registers[j]?) 4 _ _ (4 + (4 * (j - 0 + 1))) (fun _ _ => rfl) ?_
  refine readField_frame_step (fun t => t.Registers[j]?) 4 _ _ (4 * (j - 0 + 1)) (fun _ _ => rfl) ?_
  exact fun t r h => readRegisters_frame 32 0 j (Nat.zero_le j) t r h


/-! ## The claims on the codec -/

/-- C1. Round trip: for every thread state `r`, running `Deserialize` (on any
receiver) over the bytes of `serializeThread r` succeeds, reads all of them and
leaves the receiver equal to `r` in every field. -/
theorem Deserialize_serializeThread_roundtrip (t0 r : ThreadState)
    (h0 : t0.Registers.length = 32) (hr : r.WellTyped) :
    Deserialize t0 (serializeThread r) = ⟨none, r, []⟩ :=
  Deserialize_serializeThread_aux t0 r h0 hr

theorem Deserialize_serializeThread_roundtrip_witness :
    (CreateEmptyThread 0).Registers.length = 32 ∧ boundaryThread.WellTyped ∧
    Deserialize (CreateEmptyThread 0) (serializeThread boundaryThread) =
      ⟨none, boundaryThread, []⟩ :=
  ⟨by decide, by decide,
    Deserialize_serializeThread_roundtrip (CreateEmptyThread 0) boundaryThread
      (by decide) (by decide)⟩

/-- C5. Truncation: `Deserialize` returns an error exactly on the streams shorter
than 166 bytes, whatever the receiver and whatever the bytes. -/
theorem Deserialize_error_iff_truncated (t : ThreadState) (r : List Nat) :
    (Deserialize t r).err ≠ none ↔ r.length < SERIALIZED_THREAD_SIZE := by
  rw [Ne, Deserialize_err, SERIALIZED_THREAD_SIZE]
  omega

/-- C6, as the claim states it, fails: on the four bytes `00 00 00 01` the decoder
returns `EOF`, yet the receiver, an empty thread with thread id 0, has thread
id 1 after the call. -/
theorem Deserialize_error_not_atomic :
    (Deserialize (CreateEmptyThread 0) [0, 0, 0, 1]).err = some ReadError.EOF ∧
    (CreateEmptyThread 0).ThreadId = 0 ∧
    (Deserialize (CreateEmptyThread 0) [0, 0, 0, 1]).t.ThreadId = 1 ∧
    (Deserialize (CreateEmptyThread 0) [0, 0, 0, 1]).t ≠ CreateEmptyThread 0 := by
  decide

/-- C6, amended. When `Deserialize` returns an error, every field whose encoded
bytes do not lie wholly within the stream is what it was before the call: the
whole record when the stream has fewer than 4 bytes, and the last register in
every case. Nothing is said of the fields that lie wholly within the stream. -/
theorem Deserialize_error_frame (t : ThreadState) (r : List Nat)
    (h : (Deserialize t r).err ≠ none) :
    (r.length < 4 → (Deserialize t r).t = t) ∧
    (r.length < 5 → (Deserialize t r).t.ExitCode = t.ExitCode) ∧
    (r.length < 6 → (Deserialize t r).t.Exited = t.Exited) ∧
    (r.length < 10 → (Deserialize t r).t.FutexAddr = t.FutexAddr) ∧
    (r.length < 14 → (Deserialize t r).t.FutexVal = t.FutexVal) ∧
    (r.length < 22 → (Deserialize t r).t.FutexTimeoutStep = t.FutexTimeoutStep) ∧
    (r.length < 26 → (Deserialize t r).t.Cpu.PC = t.Cpu.PC) ∧
    (r.length < 30 → (Deserialize t r).t.Cpu.NextPC = t.Cpu.NextPC) ∧
    (r.length < 34 → (Deserialize t r).t.Cpu.LO = t.Cpu.LO) ∧
    (r.length < 38 → (Deserialize t r).t.Cpu.HI = t.Cpu.HI) ∧
    (∀ j, r.length < 42 + 4 * j →
      (Deserialize t r).t.Registers[j]? = t.Registers[j]?) ∧
    (Deserialize t r).t.Registers[31]? = t.Registers[31]? := by
  have hlen : r.length < 166 := by
    by_contra hge
    exact h ((Deserialize_err t r).2 (by omega))
  refine ⟨fun h4 => ?_, Deserialize_frame_ExitCode t r, Deserialize_frame_Exited t r,
    Deserialize_frame_FutexAddr t r, Deserialize_frame_FutexVal t r,
    Deserialize_frame_FutexTimeoutStep t r, Deserialize_frame_PC t r,
    Deserialize_frame_NextPC t r, Deserialize_frame_LO t r, Deserialize_frame_HI t r,
    Deserialize_frame_Registers t r, Deserialize_frame_Registers t r 31 (by omega)⟩
  unfold Deserialize
  exact readField_frame_here 4 _ _ t r h4

theorem Deserialize_error_frame_witness :
    (Deserialize boundaryThread [0, 0, 0, 1, 7, 9, 8]).err ≠ none ∧
    (Deserialize boundaryThread [0, 0, 0, 1, 7, 9, 8]).t.FutexAddr = 0xFFFFFFFF ∧
    (Deserialize boundaryThread [0, 0, 0, 1, 7, 9, 8]).t.Registers[31]? = some 0xFFFFFFFF :=
  ⟨by decide,
    (Deserialize_error_frame boundaryThread [0, 0, 0, 1, 7, 9, 8] (by decide)).2.2.2.1
      (by decide),
    (Deserialize_error_frame boundaryThread [0, 0, 0, 1, 7, 9, 8] (by decide)).2.2.2.2.2.2.2.2.2.2.2⟩

/-! ## The claims on the hash onion -/

theorem Keccak256Hash_length (m : List Nat) : (Keccak256Hash m).length = 32 := by
  simp [Keccak256Hash]

theorem computeThreadRoot_def (prevStackRoot : List Nat) (t : ThreadState) :
    computeThreadRoot prevStackRoot t =
      Keccak256Hash (prevStackRoot ++ Keccak256Hash (serializeThread t)) := by
  simp [computeThreadRoot]

/-- Two well-typed thread states with the same encoding are equal. -/
theorem serializeThread_inj (t t' : ThreadState) (ht : t.WellTyped) (ht' : t'.WellTyped)
    (h : serializeThread t = serializeThread t') : t = t' := by
  have hl : t.Registers.length = 32 := ht.2.2.2.2.2.2.2.2.2.1
  have a := Deserialize_serializeThread_aux t t hl ht
  have b := Deserialize_serializeThread_aux t t' hl ht'
  rw [← h, a] at b
  exact (congrArg Outcome.t b)

/-- C4. Fold definition: for every 32 byte root and every thread state,
`computeThreadRoot` is the Keccak-256 digest of the root followed by the
Keccak-256 digest of the encoded thread; the hashed string has exactly 64 bytes,
and the function is total, with a 32 byte result and no error. -/
theorem computeThreadRoot_fold (prevStackRoot : List Nat) (t : ThreadState)
    (hroot : prevStackRoot.length = 32) :
    computeThreadRoot prevStackRoot t =
      Keccak256Hash (prevStackRoot ++ Keccak256Hash (serializeThread t)) ∧
    (Keccak256Hash (serializeThread t)).length = 32 ∧
    (prevStackRoot ++ Keccak256Hash (serializeThread t)).length = 64 ∧
    (computeThreadRoot prevStackRoot t).length = 32 := by
  refine ⟨computeThreadRoot_def _ _, Keccak256Hash_length _, ?_, ?_⟩
  · rw [List.length_append, hroot, Keccak256Hash_length]
  · rw [computeThreadRoot_def, Keccak256Hash_length]

theorem computeThreadRoot_fold_witness :
    EmptyThreadsRoot.length = 32 ∧
    computeThreadRoot EmptyThreadsRoot (scenarioThread 42) =
      Keccak256Hash (EmptyThreadsRoot ++ Keccak256Hash (serializeThread (scenarioThread 42))) ∧
    (EmptyThreadsRoot ++ Keccak256Hash (serializeThread (scenarioThread 42))).length = 64 :=
  ⟨by decide, (computeThreadRoot_fold EmptyThreadsRoot (scenarioThread 42) (by decide)).1,
    (computeThreadRoot_fold EmptyThreadsRoot (scenarioThread 42) (by decide)).2.2.1⟩

set_option maxRecDepth 100000 in
/-- C7. Empty-stack root: the constant `EmptyThreadsRoot`, the 32 bytes
`ad3228b6...97ba5fb5`, is the Keccak-256 digest of 64 zero bytes, that is of two
all-zero blocks of 32 bytes one after the other. -/
theorem EmptyThreadsRoot_eq_keccak_zero :
    EmptyThreadsRoot = Keccak256Hash (List.replicate 32 0 ++ List.replicate 32 0) ∧
    List.replicate 32 0 ++ List.replicate 32 0 = List.replicate 64 0 ∧
    EmptyThreadsRoot =
      [0xad, 0x32, 0x28, 0xb6, 0x76, 0xf7, 0xd3, 0xcd, 0x42, 0x84, 0xa5, 0x44, 0x3f, 0x17,
       0xf1, 0x96, 0x2b, 0x36, 0xe4, 0x91, 0xb3, 0x0a, 0x40, 0xb2, 0x40, 0x58, 0x49, 0xe5,
       0x97, 0xba, 0x5f, 0xb5] := by
  decide!

/-- C8. Empty-thread defaults: `CreateEmptyThread` returns the record with thread
id 0, exit code 0, not exited, PC 0, NextPC 4, LO 0, HI 0, futex value 0, futex
timeout step 0, 32 registers all 0, and the futex address `exec.FutexEmptyAddr`. -/
theorem CreateEmptyThread_defaults (FutexEmptyAddr : Nat) :
    (CreateEmptyThread FutexEmptyAddr).ThreadId = 0 ∧
    (CreateEmptyThread FutexEmptyAddr).ExitCode = 0 ∧
    (CreateEmptyThread FutexEmptyAddr).Exited = false ∧
    (CreateEmptyThread FutexEmptyAddr).Cpu.PC = 0 ∧
    (CreateEmptyThread FutexEmptyAddr).Cpu.NextPC = 4 ∧
    (CreateEmptyThread FutexEmptyAddr).Cpu.LO = 0 ∧
    (CreateEmptyThread FutexEmptyAddr).Cpu.HI = 0 ∧
    (CreateEmptyThread FutexEmptyAddr).FutexVal = 0 ∧
    (CreateEmptyThread FutexEmptyAddr).FutexTimeoutStep = 0 ∧
    (CreateEmptyThread FutexEmptyAddr).Registers.length = 32 ∧
    (∀ x ∈ (CreateEmptyThread FutexEmptyAddr).Registers, x = 0) ∧
    (CreateEmptyThread FutexEmptyAddr).FutexAddr = FutexEmptyAddr := by
  refine ⟨rfl, rfl, rfl, rfl, rfl, rfl, rfl, rfl, rfl, rfl, ?_, rfl⟩
  intro x hx
  exact List.eq_of_mem_replicate hx

/-! ### Digests of the scenario threads

The Keccak-256 digests of the encodings of the two scenario threads, and the
roots after pushing either onto the empty stack, by evaluation. -/

set_option maxRecDepth 100000 in
theorem digest_scenario_42 :
    Keccak256Hash (serializeThread (scenarioThread 42)) =
      [26, 35, 197, 148, 141, 195, 220, 44, 141, 149, 196, 122, 65, 137, 128, 92, 202, 181, 7, 50,
       2, 10, 215, 44, 158, 255, 100, 149, 79, 169, 45, 5] := by
  decide!

set_option maxRecDepth 100000 in
theorem digest_scenario_43 :
    Keccak256Hash (serializeThread (scenarioThread 43)) =
      [181, 186, 33, 178, 158, 93, 84, 97, 81, 166, 209, 48, 215, 250, 128, 66, 25, 179, 237, 29,
       81, 165, 234, 146, 103, 52, 131, 247, 1, 172, 250, 22] := by
  decide!

set_option maxRecDepth 100000 in
theorem root_scenario_42 :
    computeThreadRoot EmptyThreadsRoot (scenarioThread 42) =
      [4, 86, 199, 76, 191, 55, 192, 138, 128, 142, 162, 137, 235, 179, 228, 44, 95, 77, 65, 38,
       130, 115, 237, 33, 186, 10, 161, 32, 242, 24, 80, 74] := by
  rw [computeThreadRoot_def, digest_scenario_42]
  decide!

set_option maxRecDepth 100000 in
theorem root_scenario_43 :
    computeThreadRoot EmptyThreadsRoot (scenarioThread 43) =
      [184, 238, 136, 252, 190, 242, 221, 194, 102, 126, 242, 51, 162, 55, 83, 100, 157, 51, 232,
       54, 92, 237, 190, 51, 159, 1, 53, 37, 91, 224, 41, 250] := by
  rw [computeThreadRoot_def, digest_scenario_43]
  decide!

/-- The encodings of the two scenario threads do not collide. -/
theorem collisionFree_scenario_leaf :
    CollisionFree (serializeThread (scenarioThread 42)) (serializeThread (scenarioThread 43)) := by
  intro h
  rw [digest_scenario_42, digest_scenario_43] at h
  exact absurd h (by decide)

/-- The strings hashed when either scenario thread is pushed onto the empty
stack do not collide. -/
theorem collisionFree_scenario_node :
    CollisionFree (EmptyThreadsRoot ++ Keccak256Hash (serializeThread (scenarioThread 42)))
      (EmptyThreadsRoot ++ Keccak256Hash (serializeThread (scenarioThread 43))) := by
  intro h
  rw [← computeThreadRoot_def, ← computeThreadRoot_def, root_scenario_42,
    root_scenario_43] at h
  exact absurd h (by decide)

set_option maxRecDepth 100000 in
/-- The strings hashed when the two scenario threads are pushed in either order
do not collide. -/
theorem collisionFree_scenario_order :
    CollisionFree
      (computeThreadRoot EmptyThreadsRoot (scenarioThread 43) ++
        Keccak256Hash (serializeThread (scenarioThread 42)))
      (computeThreadRoot EmptyThreadsRoot (scenarioThread 42) ++
        Keccak256Hash (serializeThread (scenarioThread 43))) := by
  intro h
  rw [root_scenario_42, root_scenario_43, digest_scenario_42, digest_scenario_43] at h
  exact absurd h (by decide!)

/-- C9. Binding: assume Keccak-256 is collision-free on the strings involved (the
two encoded threads, and the two 64 byte strings hashed into the roots). Then
equal roots `computeThreadRoot r t = computeThreadRoot r' t'` force `r = r'` and
`t = t'`; hence a thread record changed in any field changes the root. The
assumption is made for the strings involved only: no function from all byte
strings to 32 bytes is injective. -/
theorem computeThreadRoot_binding (r r' : List Nat) (t t' : ThreadState)
    (hr : r.length = 32) (hr' : r'.length = 32) (ht : t.WellTyped) (ht' : t'.WellTyped)
    (hleaf : CollisionFree (serializeThread t) (serializeThread t'))
    (hnode : CollisionFree (r ++ Keccak256Hash (serializeThread t))
      (r' ++ Keccak256Hash (serializeThread t'))) :
    (computeThreadRoot r t = computeThreadRoot r' t' → r = r' ∧ t = t') ∧
    (t ≠ t' → computeThreadRoot r t ≠ computeThreadRoot r' t') := by
  have key : computeThreadRoot r t = computeThreadRoot r' t' → r = r' ∧ t = t' := by
    intro h
    rw [computeThreadRoot_def, computeThreadRoot_def] at h
    obtain ⟨h1, h2⟩ := List.append_inj (hnode h) (by rw [hr, hr'])
    exact ⟨h1, serializeThread_inj t t' ht ht' (hleaf h2)⟩
  exact ⟨key, fun hne h => hne (key h).2⟩

theorem computeThreadRoot_binding_witness :
    scenarioThread 42 ≠ scenarioThread 43 ∧
    computeThreadRoot EmptyThreadsRoot (scenarioThread 42) ≠
      computeThreadRoot EmptyThreadsRoot (scenarioThread 43) :=
  ⟨by decide,
    (computeThreadRoot_binding EmptyThreadsRoot EmptyThreadsRoot (scenarioThread 42)
      (scenarioThread 43) (by decide) (by decide) (by decide) (by decide)
      collisionFree_scenario_leaf collisionFree_scenario_node).2 (by decide)⟩

/-- C10. Order sensitivity: assume Keccak-256 is collision-free on the strings
involved. Then for every root and every two thread states that differ, pushing
the first and then the second gives another root than pushing the second and
then the first. -/
theorem computeThreadRoot_order_sensitive (root0 : List Nat) (t1 t2 : ThreadState)
    (h1 : t1.WellTyped) (h2 : t2.WellTyped) (hne : t1 ≠ t2)
    (hleaf : CollisionFree (serializeThread t2) (serializeThread t1))
    (hnode : CollisionFree
      (computeThreadRoot root0 t1 ++ Keccak256Hash (serializeThread t2))
      (computeThreadRoot root0 t2 ++ Keccak256Hash (serializeThread t1))) :
    computeThreadRoot (computeThreadRoot root0 t1) t2 ≠
      computeThreadRoot (computeThreadRoot root0 t2) t1 := by
  intro h
  rw [computeThreadRoot_def (computeThreadRoot root0 t1),
    computeThreadRoot_def (computeThreadRoot root0 t2)] at h
  have hlen : (computeThreadRoot root0 t1).length = (computeThreadRoot root0 t2).length := by
    rw [computeThreadRoot_def, computeThreadRoot_def, Keccak256Hash_length,
      Keccak256Hash_length]
  obtain ⟨-, h3⟩ := List.append_inj (hnode h) hlen
  exact hne (serializeThread_inj t2 t1 h2 h1 (hleaf h3)).symm

theorem computeThreadRoot_order_sensitive_witness :
    (scenarioThread 43).WellTyped ∧ (scenarioThread 42).WellTyped ∧
    scenarioThread 43 ≠ scenarioThread 42 ∧
    computeThreadRoot (computeThreadRoot EmptyThreadsRoot (scenarioThread 43))
        (scenarioThread 42) ≠
      computeThreadRoot (computeThreadRoot EmptyThreadsRoot (scenarioThread 42))
        (scenarioThread 43) :=
  ⟨by decide, by decide, by decide,
    computeThreadRoot_order_sensitive EmptyThreadsRoot (scenarioThread 43) (scenarioThread 42)
      (by decide) (by decide) (by decide) collisionFree_scenario_leaf
      collisionFree_scenario_order⟩

/-! ## The decoder: what it stores, what it leaves in the stream, which error -/

theorem fieldAt_drop (r : List Nat) (a o w : Nat) :
    fieldAt (r.drop a) o w = fieldAt r (a + o) w := by
  simp [fieldAt, List.drop_drop]

theorem readField_rest (w : Nat) (s : ThreadState → Nat → ThreadState)
    (k : ThreadState → List Nat → Outcome) (n : Nat)
    (hk : ∀ t r, (k t r).rest = r.drop n) (t : ThreadState) (r : List Nat) :
    (readField w s k t r).rest = r.drop (w + n) := by
  by_cases h : w ≤ r.length
  · rw [readField_of_le _ _ _ _ _ h, hk, List.drop_drop]
  · rw [readField_of_lt _ _ _ _ _ (by omega)]
    exact (List.drop_eq_nil_of_le (by omega)).symm

theorem readRegisters_rest (n i : Nat) (t : ThreadState) (r : List Nat) :
    (readRegisters n i t r).rest = r.drop (4 * n) := by
  induction n generalizing i t r with
  | zero => simp [readRegisters]
  | succ n ih =>
    rw [readRegisters, readField_rest 4 _ _ (4 * n) (fun t r => ih (i + 1) t r)]
    congr 1; omega

theorem Deserialize_rest (t : ThreadState) (r : List Nat) :
    (Deserialize t r).rest = r.drop 166 :=
  readField_rest 4 _ _ 162 (readField_rest 1 _ _ 161 (readField_rest 1 _ _ 160
    (readField_rest 4 _ _ 156 (readField_rest 4 _ _ 152 (readField_rest 8 _ _ 144
    (readField_rest 4 _ _ 140 (readField_rest 4 _ _ 136 (readField_rest 4 _ _ 132
    (readField_rest 4 _ _ 128 (readRegisters_rest 32 0)))))))))) t r

theorem readField_preserves {α : Type} (g : ThreadState → α) (w : Nat)
    (s : ThreadState → Nat → ThreadState) (k : ThreadState → List Nat → Outcome)
    (hs : ∀ t v, g (s t v) = g t) (hk : ∀ t r, g (k t r).t = g t)
    (t : ThreadState) (r : List Nat) : g (readField w s k t r).t = g t := by
  by_cases hw : w ≤ r.length
  · rw [readField_of_le _ _ _ _ _ hw, hk, hs]
  · rw [readField_frame_here _ _ _ _ _ (by omega)]

/-- The register loop leaves alone whatever does not depend on the registers. -/
theorem readRegisters_preserves {α : Type} (g : ThreadState → α)
    (hg : ∀ (t : ThreadState) (i v : Nat), g { t with Registers := t.Registers.set i v } = g t)
    (n i : Nat) (t : ThreadState) (r : List Nat) :
    g (readRegisters n i t r).t = g t := by
  induction n generalizing i t r with
  | zero => simp [readRegisters]
  | succ n ih =>
    rw [readRegisters]
    exact readField_preserves g 4 _ _ (fun t v => hg t i v) (fun t r => ih (i + 1) t r) t r

theorem readField_value_here {α : Type} (g : ThreadState → α) (w : Nat)
    (s : ThreadState → Nat → ThreadState) (k : ThreadState → List Nat → Outcome)
    (f : Nat → α) (hs : ∀ t v, g (s t v) = f v) (hk : ∀ t r, g (k t r).t = g t)
    (t : ThreadState) (r : List Nat) (h : w ≤ r.length) :
    g (readField w s k t r).t = f (fieldAt r 0 w) := by
  rw [readField_of_le _ _ _ _ _ h, hk, hs]
  simp [fieldAt]

theorem readField_value_step {α : Type} (P : ThreadState → Prop) (g : ThreadState → α)
    (w : Nat) (s : ThreadState → Nat → ThreadState) (k : ThreadState → List Nat → Outcome)
    (n o wd : Nat) (f : Nat → α) (hP : ∀ t v, P t → P (s t v))
    (hk : ∀ t r, P t → n ≤ r.length → g (k t r).t = f (fieldAt r o wd))
    (t : ThreadState) (r : List Nat) (ht : P t) (h : w + n ≤ r.length) :
    g (readField w s k t r).t = f (fieldAt r (w + o) wd) := by
  rw [readField_of_le _ _ _ _ _ (by omega),
    hk _ _ (hP _ _ ht) (by rw [List.length_drop]; omega), fieldAt_drop]


theorem readRegisters_below (n i j : Nat) (hji : j < i) (t : ThreadState) (r : List Nat) :
    (readRegisters n i t r).t.Registers[j]? = t.Registers[j]? := by
  induction n generalizing i t r with
  | zero => simp [readRegisters]
  | succ n ih =>
    rw [readRegisters]
    refine readField_preserves (fun t => t.Registers[j]?) 4 _ _ ?_
      (fun t r => ih (i + 1) (by omega) t r) t r
    intro t v
    have : i ≠ j := by omega
    simp [List.getElem?_set, this]

theorem readRegisters_length (n i : Nat) (t : ThreadState) (r : List Nat) :
    (readRegisters n i t r).t.Registers.length = t.Registers.length :=
  readRegisters_preserves (fun t => t.Registers.length) (fun _ _ _ => by simp) n i t r

/-- The register loop from index `i` stores in register `j` the four bytes of
its encoding, when they are all there. -/
theorem readRegisters_value (n i j : Nat) (hij : i ≤ j) (hjn : j < i + n) (t : ThreadState)
    (r : List Nat) (hj : j < t.Registers.length) (h : 4 * (j - i + 1) ≤ r.length) :
    (readRegisters n i t r).t.Registers[j]? = some (fieldAt r (4 * (j - i)) 4) := by
  induction n generalizing i t r with
  | zero => omega
  | succ n ih =>
    rw [readRegisters, readField_of_le _ _ _ _ _ (by omega)]
    by_cases hj' : i = j
    · subst hj'
      rw [readRegisters_below n (i + 1) i (by omega)]
      simp [List.getElem?_set, hj, fieldAt]
    · rw [ih (i + 1) (by omega) (by omega) _ _ (by simpa using hj)
        (by rw [List.length_drop]; omega), fieldAt_drop]
      congr 2; omega


theorem readField_value_next {α : Type} (g : ThreadState → α)
    (w : Nat) (s : ThreadState → Nat → ThreadState) (k : ThreadState → List Nat → Outcome)
    (n o wd : Nat) (f : Nat → α)
    (hk : ∀ t r, n ≤ r.length → g (k t r).t = f (fieldAt r o wd))
    (t : ThreadState) (r : List Nat) (h : w + n ≤ r.length) :
    g (readField w s k t r).t = f (fieldAt r (w + o) wd) :=
  readField_value_step (fun _ => True) g w s k n o wd f (fun _ _ h => h)
    (fun t r _ h => hk t r h) t r trivial h

theorem Deserialize_value_ThreadId (t : ThreadState) (r : List Nat) (h : 4 ≤ r.length) :
    (Deserialize t r).t.ThreadId = fieldAt r 0 4 := by
  unfold Deserialize
  revert t r
  intro t r h
  refine readField_value_here (fun t => t.ThreadId) 4 _ _ (fun v => v) ?_ ?_ t r h
  · intro _ _; rfl
  refine readField_preserves (fun t => t.ThreadId) 1 _ _ (fun _ _ => rfl) ?_
  refine readField_preserves (fun t => t.ThreadId) 1 _ _ (fun _ _ => rfl) ?_
  refine readField_preserves (fun t => t.ThreadId) 4 _ _ (fun _ _ => rfl) ?_
  refine readField_preserves (fun t => t.ThreadId) 4 _ _ (fun _ _ => rfl) ?_
  refine readField_preserves (fun t => t.ThreadId) 8 _ _ (fun _ _ => rfl) ?_
  refine readField_preserves (fun t => t.ThreadId) 4 _ _ (fun _ _ => rfl) ?_
  refine readField_preserves (fun t => t.ThreadId) 4 _ _ (fun _ _ => rfl) ?_
  refine readField_preserves (fun t => t.ThreadId) 4 _ _ (fun _ _ => rfl) ?_
  refine readField_preserves (fun t => t.ThreadId) 4 _ _ (fun _ _ => rfl) ?_
  exact readRegisters_preserves (fun t => t.ThreadId) (fun _ _ _ => rfl) 32 0

theorem Deserialize_value_ExitCode (t : ThreadState) (r : List Nat) (h : 5 ≤ r.length) :
    (Deserialize t r).t.ExitCode = fieldAt r 4 1 := by
  unfold Deserialize
  revert t r
  refine readField_value_next (fun t => t.ExitCode) 4 _ _ 1 0 1 (fun v => v) ?_
  intro t r h
  refine readField_value_here (fun t => t.ExitCode) 1 _ _ (fun v => v) ?_ ?_ t r h
  · intro _ _; rfl
  refine readField_preserves (fun t => t.ExitCode) 1 _ _ (fun _ _ => rfl) ?_
  refine readField_preserves (fun t => t.ExitCode) 4 _ _ (fun _ _ => rfl) ?_
  refine readField_preserves (fun t => t.ExitCode) 4 _ _ (fun _ _ => rfl) ?_
  refine readField_preserves (fun t => t.ExitCode) 8 _ _ (fun _ _ => rfl) ?_
  refine readField_preserves (fun t => t.ExitCode) 4 _ _ (fun _ _ => rfl) ?_
  refine readField_preserves (fun t => t.ExitCode) 4 _ _ (fun _ _ => rfl) ?_
  refine readField_preserves (fun t => t.ExitCode) 4 _ _ (fun _ _ => rfl) ?_
  refine readField_preserves (fun t => t.ExitCode) 4 _ _ (fun _ _ => rfl) ?_
  exact readRegisters_preserves (fun t => t.ExitCode) (fun _ _ _ => rfl) 32 0

theorem Deserialize_value_Exited (t : ThreadState) (r : List Nat) (h : 6 ≤ r.length) :
    (Deserialize t r).t.Exited = (fieldAt r 5 1 != 0) := by
  unfold Deserialize
  revert t r
  refine readField_value_next (fun t => t.Exited) 4 _ _ 2 1 1 (fun v => v != 0) ?_
  refine readField_value_next (fun t => t.Exited) 1 _ _ 1 0 1 (fun v => v != 0) ?_
  intro t r h
  refine readField_value_here (fun t => t.Exited) 1 _ _ (fun v => v != 0) ?_ ?_ t r h
  · intro _ _; rfl
  refine readField_preserves (fun t => t.Exited) 4 _ _ (fun _ _ => rfl) ?_
  refine readField_preserves (fun t => t.Exited) 4 _ _ (fun _ _ => rfl) ?_
  refine readField_preserves (fun t => t.Exited) 8 _ _ (fun _ _ => rfl) ?_
  refine readField_preserves (fun t => t.Exited) 4 _ _ (fun _ _ => rfl) ?_
  refine readField_preserves (fun t => t.Exited) 4 _ _ (fun _ _ => rfl) ?_
  refine readField_preserves (fun t => t.Exited) 4 _ _ (fun _ _ => rfl) ?_
  refine readField_preserves (fun t => t.Exited) 4 _ _ (fun _ _ => rfl) ?_
  exact readRegisters_preserves (fun t => t.Exited) (fun _ _ _ => rfl) 32 0

theorem Deserialize_value_FutexAddr (t : ThreadState) (r : List Nat) (h : 10 ≤ r.length) :
    (Deserialize t r).t.FutexAddr = fieldAt r 6 4 := by
  unfold Deserialize
  revert t r
  refine readField_value_next (fun t => t.FutexAddr) 4 _ _ 6 2 4 (fun v => v) ?_
  refine readField_value_next (fun t => t.FutexAddr) 1 _ _ 5 1 4 (fun v => v) ?_
  refine readField_value_next (fun t => t.FutexAddr) 1 _ _ 4 0 4 (fun v => v) ?_
  intro t r h
  refine readField_value_here (fun t => t.FutexAddr) 4 _ _ (fun v => v) ?_ ?_ t r h
  · intro _ _; rfl
  refine readField_preserves (fun t => t.FutexAddr) 4 _ _ (fun _ _ => rfl) ?_
  refine readField_preserves (fun t => t.FutexAddr) 8 _ _ (fun _ _ => rfl) ?_
  refine readField_preserves (fun t => t.FutexAddr) 4 _ _ (fun _ _ => rfl) ?_
  refine readField_preserves (fun t => t.FutexAddr) 4 _ _ (fun _ _ => rfl) ?_
  refine readField_preserves (fun t => t.FutexAddr) 4 _ _ (fun _ _ => rfl) ?_
  refine readField_preserves (fun t => t.FutexAddr) 4 _ _ (fun _ _ => rfl) ?_
  exact readRegisters_preserves (fun t => t.FutexAddr) (fun _ _ _ => rfl) 32 0

theorem Deserialize_value_FutexVal (t : ThreadState) (r : List Nat) (h : 14 ≤ r.length) :
    (Deserialize t r).t.FutexVal = fieldAt r 10 4 := by
  unfold Deserialize
  revert t r
  refine readField_value_next (fun t => t.FutexVal) 4 _ _ 10 6 4 (fun v => v) ?_
  refine readField_value_next (fun t => t.FutexVal) 1 _ _ 9 5 4 (fun v => v) ?_
  refine readField_value_next (fun t => t.FutexVal) 1 _ _ 8 4 4 (fun v => v) ?_
  refine readField_value_next (fun t => t.FutexVal) 4 _ _ 4 0 4 (fun v => v) ?_
  intro t r h
  refine readField_value_here (fun t => t.FutexVal) 4 _ _ (fun v => v) ?_ ?_ t r h
  · intro _ _; rfl
  refine readField_preserves (fun t => t.FutexVal) 8 _ _ (fun _ _ => rfl) ?_
  refine readField_preserves (fun t => t.FutexVal) 4 _ _ (fun _ _ => rfl) ?_
  refine readField_preserves (fun t => t.FutexVal) 4 _ _ (fun _ _ => rfl) ?_
  refine readField_preserves (fun t => t.FutexVal) 4 _ _ (fun _ _ => rfl) ?_
  refine readField_preserves (fun t => t.FutexVal) 4 _ _ (fun _ _ => rfl) ?_
  exact readRegisters_preserves (fun t => t.FutexVal) (fun _ _ _ => rfl) 32 0

theorem Deserialize_value_FutexTimeoutStep (t : ThreadState) (r : List Nat) (h : 22 ≤ r.length) :
    (Deserialize t r).t.FutexTimeoutStep = fieldAt r 14 8 := by
  unfold Deserialize
  revert t r
  refine readField_value_next (fun t => t.FutexTimeoutStep) 4 _ _ 18 10 8 (fun v => v) ?_
  refine readField_value_next (fun t => t.FutexTimeoutStep) 1 _ _ 17 9 8 (fun v => v) ?_
  refine readField_value_next (fun t => t.FutexTimeoutStep) 1 _ _ 16 8 8 (fun v => v) ?_
  refine readField_value_next (fun t => t.FutexTimeoutStep) 4 _ _ 12 4 8 (fun v => v) ?_
  refine readField_value_next (fun t => t.FutexTimeoutStep) 4 _ _ 8 0 8 (fun v => v) ?_
  intro t r h
  refine readField_value_here (fun t => t.FutexTimeoutStep) 8 _ _ (fun v => v) ?_ ?_ t r h
  · intro _ _; rfl
  refine readField_preserves (fun t => t.FutexTimeoutStep) 4 _ _ (fun _ _ => rfl) ?_
  refine readField_preserves (fun t => t.FutexTimeoutStep) 4 _ _ (fun _ _ => rfl) ?_
  refine readField_preserves (fun t => t.FutexTimeoutStep) 4 _ _ (fun _ _ => rfl) ?_
  refine readField_preserves (fun t => t.FutexTimeoutStep) 4 _ _ (fun _ _ => rfl) ?_
  exact readRegisters_preserves (fun t => t.FutexTimeoutStep) (fun _ _ _ => rfl) 32 0

theorem Deserialize_value_PC (t : ThreadState) (r : List Nat) (h : 26 ≤ r.length) :
    (Deserialize t r).t.Cpu.PC = fieldAt r 22 4 := by
  unfold Deserialize
  revert t r
  refine readField_value_next (fun t => t.Cpu.PC) 4 _ _ 22 18 4 (fun v => v) ?_
  refine readField_value_next (fun t => t.Cpu.PC) 1 _ _ 21 17 4 (fun v => v) ?_
  refine readField_value_next (fun t => t.Cpu.PC) 1 _ _ 20 16 4 (fun v => v) ?_
  refine readField_value_next (fun t => t.Cpu.PC) 4 _ _ 16 12 4 (fun v => v) ?_
  refine readField_value_next (fun t => t.Cpu.PC) 4 _ _ 12 8 4 (fun v => v) ?_
  refine readField_value_next (fun t => t.Cpu.PC) 8 _ _ 4 0 4 (fun v => v) ?_
  intro t r h
  refine readField_value_here (fun t => t.Cpu.PC) 4 _ _ (fun v => v) ?_ ?_ t r h
  · intro _ _; rfl
  refine readField_preserves (fun t => t.Cpu.PC) 4 _ _ (fun _ _ => rfl) ?_
  refine readField_preserves (fun t => t.Cpu.PC) 4 _ _ (fun _ _ => rfl) ?_
  refine readField_preserves (fun t => t.Cpu.PC) 4 _ _ (fun _ _ => rfl) ?_
  exact readRegisters_preserves (fun t => t.Cpu.PC) (fun _ _ _ => rfl) 32 0

theorem Deserialize_value_NextPC (t : ThreadState) (r : List Nat) (h : 30 ≤ r.length) :
    (Deserialize t r).t.Cpu.NextPC = fieldAt r 26 4 := by
  unfold Deserialize
  revert t r
  refine readField_value_next (fun t => t.Cpu.NextPC) 4 _ _ 26 22 4 (fun v => v) ?_
  refine readField_value_next (fun t => t.Cpu.NextPC) 1 _ _ 25 21 4 (fun v => v) ?_
  refine readField_value_next (fun t => t.Cpu.NextPC) 1 _ _ 24 20 4 (fun v => v) ?_
  refine readField_value_next (fun t => t.Cpu.NextPC) 4 _ _ 20 16 4 (fun v => v) ?_
  refine readField_value_next (fun t => t.Cpu.NextPC) 4 _ _ 16 12 4 (fun v => v) ?_
  refine readField_value_next (fun t => t.Cpu.NextPC) 8 _ _ 8 4 4 (fun v => v) ?_
  refine readField_value_next (fun t => t.Cpu.NextPC) 4 _ _ 4 0 4 (fun v => v) ?_
  intro t r h
  refine readField_value_here (fun t => t.Cpu.NextPC) 4 _ _ (fun v => v) ?_ ?_ t r h
  · intro _ _; rfl
  refine readField_preserves (fun t => t.Cpu.NextPC) 4 _ _ (fun _ _ => rfl) ?_
  refine readField_preserves (fun t => t.Cpu.NextPC) 4 _ _ (fun _ _ => rfl) ?_
  exact readRegisters_preserves (fun t => t.Cpu.NextPC) (fun _ _ _ => rfl) 32 0

theorem Deserialize_value_LO (t : ThreadState) (r : List Nat) (h : 34 ≤ r.length) :
    (Deserialize t r).t.Cpu.LO = fieldAt r 30 4 := by
  unfold Deserialize
  revert t r
  refine readField_value_next (fun t => t.Cpu.LO) 4 _ _ 30 26 4 (fun v => v) ?_
  refine readField_value_next (fun t => t.Cpu.LO) 1 _ _ 29 25 4 (fun v => v) ?_
  refine readField_value_next (fun t => t.Cpu.LO) 1 _ _ 28 24 4 (fun v => v) ?_
  refine readField_value_next (fun t => t.Cpu.LO) 4 _ _ 24 20 4 (fun v => v) ?_
  refine readField_value_next (fun t => t.Cpu.LO) 4 _ _ 20 16 4 (fun v => v) ?_
  refine readField_value_next (fun t => t.Cpu.LO) 8 _ _ 12 8 4 (fun v => v) ?_
  refine readField_value_next (fun t => t.Cpu.LO) 4 _ _ 8 4 4 (fun v => v) ?_
  refine readField_value_next (fun t => t.Cpu.LO) 4 _ _ 4 0 4 (fun v => v) ?_
  intro t r h
  refine readField_value_here (fun t => t.Cpu.LO) 4 _ _ (fun v => v) ?_ ?_ t r h
  · intro _ _; rfl
  refine readField_preserves (fun t => t.Cpu.LO) 4 _ _ (fun _ _ => rfl) ?_
  exact readRegisters_preserves (fun t => t.Cpu.LO) (fun _ _ _ => rfl) 32 0

theorem Deserialize_value_HI (t : ThreadState) (r : List Nat) (h : 38 ≤ r.length) :
    (Deserialize t r).t.Cpu.HI = fieldAt r 34 4 := by
  unfold Deserialize
  revert t r
  refine readField_value_next (fun t => t.Cpu.HI) 4 _ _ 34 30 4 (fun v => v) ?_
  refine readField_value_next (fun t => t.Cpu.HI) 1 _ _ 33 29 4 (fun v => v) ?_
  refine readField_value_next (fun t => t.Cpu.HI) 1 _ _ 32 28 4 (fun v => v) ?_
  refine readField_value_next (fun t => t.Cpu.HI) 4 _ _ 28 24 4 (fun v => v) ?_
  refine readField_value_next (fun t => t.Cpu.HI) 4 _ _ 24 20 4 (fun v => v) ?_
  refine readField_value_next (fun t => t.Cpu.HI) 8 _ _ 16 12 4 (fun v => v) ?_
  refine readField_value_next (fun t => t.Cpu.HI) 4 _ _ 12 8 4 (fun v => v) ?_
  refine readField_value_next (fun t => t.Cpu.HI) 4 _ _ 8 4 4 (fun v => v) ?_
  refine readField_value_next (fun t => t.Cpu.HI) 4 _ _ 4 0 4 (fun v => v) ?_
  intro t r h
  refine readField_value_here (fun t => t.Cpu.HI) 4 _ _ (fun v => v) ?_ ?_ t r h
  · intro _ _; rfl
  exact readRegisters_preserves (fun t => t.Cpu.HI) (fun _ _ _ => rfl) 32 0

theorem Deserialize_value_Registers (t : ThreadState) (r : List Nat) (j : Nat) (hj : j < 32)
    (hlen : t.Registers.length = 32) (h : 42 + 4 * j ≤ r.length) :
    (Deserialize t r).t.Registers[j]? = some (fieldAt r (38 + 4 * j) 4) := by
  have key : ∀ (t : ThreadState) (r : List Nat), j < t.Registers.length →
      4 + (1 + (1 + (4 + (4 + (8 + (4 + (4 + (4 + (4 + 4 * (j + 1)))))))))) ≤ r.length →
      (Deserialize t r).t.Registers[j]? =
        some (fieldAt r (4 + (1 + (1 + (4 + (4 + (8 + (4 + (4 + (4 + (4 + 4 * j)))))))))) 4) := by
    intro t r
    unfold Deserialize
    revert t r
    refine readField_value_step (fun t => j < t.Registers.length) (fun t => t.Registers[j]?) 4 _ _ (1 + (1 + (4 + (4 + (8 + (4 + (4 + (4 + (4 + (4 * (j + 1))))))))))) (1 + (1 + (4 + (4 + (8 + (4 + (4 + (4 + (4 + (4 * j)))))))))) 4 some
      (fun _ _ h => h) ?_
    refine readField_value_step (fun t => j < t.Registers.length) (fun t => t.Registers[j]?) 1 _ _ (1 + (4 + (4 + (8 + (4 + (4 + (4 + (4 + (4 * (j + 1)))))))))) (1 + (4 + (4 + (8 + (4 + (4 + (4 + (4 + (4 * j))))))))) 4 some
      (fun _ _ h => h) ?_
    refine readField_value_step (fun t => j < t.Registers.length) (fun t => t.Registers[j]?) 1 _ _ (4 + (4 + (8 + (4 + (4 + (4 + (4 + (4 * (j + 1))))))))) (4 + (4 + (8 + (4 + (4 + (4 + (4 + (4 * j)))))))) 4 some
      (fun _ _ h => h) ?_
    refine readField_value_step (fun t => j < t.Registers.length) (fun t => t.Registers[j]?) 4 _ _ (4 + (8 + (4 + (4 + (4 + (4 + (4 * (j + 1)))))))) (4 + (8 + (4 + (4 + (4 + (4 + (4 * j))))))) 4 some
      (fun _ _ h => h) ?_
    refine readField_value_step (fun t => j < t.Registers.length) (fun t => t.Registers[j]?) 4 _ _ (8 + (4 + (4 + (4 + (4 + (4 * (j + 1))))))) (8 + (4 + (4 + (4 + (4 + (4 * j)))))) 4 some
      (fun _ _ h => h) ?_
    refine readField_value_step (fun t => j < t.Registers.length) (fun t => t.Registers[j]?) 8 _ _ (4 + (4 + (4 + (4 + (4 * (j + 1)))))) (4 + (4 + (4 + (4 + (4 * j))))) 4 some
      (fun _ _ h => h) ?_
    refine readField_value_step (fun t => j < t.Registers.length) (fun t => t.Registers[j]?) 4 _ _ (4 + (4 + (4 + (4 * (j + 1))))) (4 + (4 + (4 + (4 * j)))) 4 some
      (fun _ _ h => h) ?_
    refine readField_value_step (fun t => j < t.Registers.length) (fun t => t.Registers[j]?) 4 _ _ (4 + (4 + (4 * (j + 1)))) (4 + (4 + (4 * j))) 4 some
      (fun _ _ h => h) ?_
    refine readField_value_step (fun t => j < t.Registers.length) (fun t => t.Registers[j]?) 4 _ _ (4 + (4 * (j + 1))) (4 + (4 * j)) 4 some
      (fun _ _ h => h) ?_
    refine readField_value_step (fun t => j < t.Registers.length) (fun t => t.Registers[j]?) 4 _ _ (4 * (j + 1)) (4 * j) 4 some
      (fun _ _ h => h) ?_
    intro t r ht h
    have := readRegisters_value 32 0 j (Nat.zero_le j) (by omega) t r ht (by omega)
    simpa using this
  have := key t r (by omega) (by omega)
  rw [this]
  congr 2
  omega


theorem Deserialize_length_Registers (t : ThreadState) (r : List Nat) :
    (Deserialize t r).t.Registers.length = t.Registers.length := by
  unfold Deserialize
  revert t r
  refine readField_preserves (fun t => t.Registers.length) 4 _ _ (fun _ _ => rfl) ?_
  refine readField_preserves (fun t => t.Registers.length) 1 _ _ (fun _ _ => rfl) ?_
  refine readField_preserves (fun t => t.Registers.length) 1 _ _ (fun _ _ => rfl) ?_
  refine readField_preserves (fun t => t.Registers.length) 4 _ _ (fun _ _ => rfl) ?_
  refine readField_preserves (fun t => t.Registers.length) 4 _ _ (fun _ _ => rfl) ?_
  refine readField_preserves (fun t => t.Registers.length) 8 _ _ (fun _ _ => rfl) ?_
  refine readField_preserves (fun t => t.Registers.length) 4 _ _ (fun _ _ => rfl) ?_
  refine readField_preserves (fun t => t.Registers.length) 4 _ _ (fun _ _ => rfl) ?_
  refine readField_preserves (fun t => t.Registers.length) 4 _ _ (fun _ _ => rfl) ?_
  refine readField_preserves (fun t => t.Registers.length) 4 _ _ (fun _ _ => rfl) ?_
  exact readRegisters_length 32 0

theorem decodeRegisters_length (n : Nat) (r : List Nat) : (decodeRegisters n r).length = n := by
  induction n generalizing r with
  | zero => rfl
  | succ n ih => simp [decodeRegisters, ih]

theorem decodeRegisters_getElem (n : Nat) (r : List Nat) (j : Nat) (hj : j < n) :
    (decodeRegisters n r)[j]? = some (fieldAt r (4 * j) 4) := by
  induction n generalizing r j with
  | zero => omega
  | succ n ih =>
    cases j with
    | zero => simp [decodeRegisters, fieldAt]
    | succ j =>
      simp only [decodeRegisters, List.getElem?_cons_succ]
      rw [ih _ _ (by omega), fieldAt_drop]
      congr 2; omega

theorem ThreadState.eq_of_fields (a b : ThreadState) (h1 : a.ThreadId = b.ThreadId)
    (h2 : a.ExitCode = b.ExitCode) (h3 : a.Exited = b.Exited) (h4 : a.FutexAddr = b.FutexAddr)
    (h5 : a.FutexVal = b.FutexVal) (h6 : a.FutexTimeoutStep = b.FutexTimeoutStep)
    (h7 : a.Cpu.PC = b.Cpu.PC) (h8 : a.Cpu.NextPC = b.Cpu.NextPC) (h9 : a.Cpu.LO = b.Cpu.LO)
    (h10 : a.Cpu.HI = b.Cpu.HI) (h11 : a.Registers = b.Registers) : a = b := by
  obtain ⟨_, _, _, _, _, _, ⟨_, _, _, _⟩, _⟩ := a
  obtain ⟨_, _, _, _, _, _, ⟨_, _, _, _⟩, _⟩ := b
  simp_all

/-- A successful decode: on at least 166 bytes, `Deserialize` returns no error,
leaves the receiver equal to the record that the layout assigns to the bytes,
and leaves the bytes after the first 166 in the stream. -/
theorem Deserialize_ok (t : ThreadState) (r : List Nat) (ht : t.Registers.length = 32)
    (h : 166 ≤ r.length) : Deserialize t r = ⟨none, decodedThread r, r.drop 166⟩ := by
  have herr := (Deserialize_err t r).2 h
  have hrest := Deserialize_rest t r
  have hregs : (Deserialize t r).t.Registers = decodeRegisters 32 (r.drop 38) := by
    apply List.ext_getElem?
    intro j
    by_cases hj : j < 32
    · rw [Deserialize_value_Registers t r j hj ht (by omega),
        decodeRegisters_getElem _ _ _ hj, fieldAt_drop]
    · rw [List.getElem?_eq_none (by rw [Deserialize_length_Registers]; omega),
        List.getElem?_eq_none (by rw [decodeRegisters_length]; omega)]
  have ht' : (Deserialize t r).t = decodedThread r :=
    ThreadState.eq_of_fields _ _ (Deserialize_value_ThreadId t r (by omega))
      (Deserialize_value_ExitCode t r (by omega)) (Deserialize_value_Exited t r (by omega))
      (Deserialize_value_FutexAddr t r (by omega)) (Deserialize_value_FutexVal t r (by omega))
      (Deserialize_value_FutexTimeoutStep t r (by omega))
      (Deserialize_value_PC t r (by omega)) (Deserialize_value_NextPC t r (by omega))
      (Deserialize_value_LO t r (by omega)) (Deserialize_value_HI t r (by omega)) hregs
  cases hd : Deserialize t r with
  | mk e t' rest =>
    rw [hd] at herr hrest ht'
    simp only at herr hrest ht'
    rw [herr, hrest, ht']


theorem fieldAt_one (r : List Nat) (off : Nat) (h : off < r.length) :
    fieldAt r off 1 = r.getD off 0 := by
  rw [fieldAt, List.drop_eq_getElem_cons h, List.take_succ_cons, List.take_zero]
  simp only [BigEndianUint, List.foldl]
  rw [List.getD_eq_getElem?_getD, List.getElem?_eq_getElem h]
  simp

theorem fieldAt_take (r : List Nat) (m off w : Nat) (h : off + w ≤ m) :
    fieldAt (r.take m) off w = fieldAt r off w := by
  rw [fieldAt, fieldAt, List.drop_take, List.take_take]
  congr 2
  omega

theorem decodeRegisters_take (n m : Nat) (l : List Nat) (h : 4 * n ≤ m) :
    decodeRegisters n (l.take m) = decodeRegisters n l := by
  induction n generalizing m l with
  | zero => rfl
  | succ n ih =>
    simp only [decodeRegisters]
    rw [List.drop_take, ih _ _ (by omega), List.take_take]
    congr 3
    omega

theorem decodedThread_take (r : List Nat) : decodedThread (r.take 166) = decodedThread r := by
  simp only [decodedThread]
  rw [fieldAt_take _ _ _ _ (by omega), fieldAt_take _ _ _ _ (by omega),
    fieldAt_take _ _ _ _ (by omega), fieldAt_take _ _ _ _ (by omega),
    fieldAt_take _ _ _ _ (by omega), fieldAt_take _ _ _ _ (by omega),
    fieldAt_take _ _ _ _ (by omega), fieldAt_take _ _ _ _ (by omega),
    fieldAt_take _ _ _ _ (by omega), fieldAt_take _ _ _ _ (by omega),
    List.drop_take, decodeRegisters_take _ _ _ (by omega)]

theorem readField_errval (w : Nat) (s : ThreadState → Nat → ThreadState)
    (k : ThreadState → List Nat → Outcome) (ws : List Nat)
    (hk : ∀ t r, (k t r).err = truncationError ws r.length) (t : ThreadState) (r : List Nat) :
    (readField w s k t r).err = truncationError (w :: ws) r.length := by
  by_cases h : w ≤ r.length
  · rw [readField_of_le _ _ _ _ _ h, hk, List.length_drop, truncationError, if_pos h]
  · rw [readField_of_lt _ _ _ _ _ (by omega), truncationError, if_neg h]

theorem readRegisters_errval (n i : Nat) (t : ThreadState) (r : List Nat) :
    (readRegisters n i t r).err = truncationError (List.replicate n 4) r.length := by
  induction n generalizing i t r with
  | zero => simp [readRegisters, truncationError]
  | succ n ih =>
    rw [readRegisters, List.replicate_succ]
    exact readField_errval 4 _ _ _ (fun t r => ih (i + 1) t r) t r

theorem Deserialize_errval (t : ThreadState) (r : List Nat) :
    (Deserialize t r).err = truncationError fieldWidths r.length :=
  readField_errval 4 _ _ _ (readField_errval 1 _ _ _ (readField_errval 1 _ _ _
    (readField_errval 4 _ _ _ (readField_errval 4 _ _ _ (readField_errval 8 _ _ _
    (readField_errval 4 _ _ _ (readField_errval 4 _ _ _ (readField_errval 4 _ _ _
    (readField_errval 4 _ _ _ (readRegisters_errval 32 0)))))))))) t r

set_option maxRecDepth 100000 in
theorem truncationError_fieldWidths :
    ∀ n, n < 166 → truncationError fieldWidths n =
      some (if n ∈ fieldBoundaries then ReadError.EOF else ReadError.ErrUnexpectedEOF) := by
  decide


/-! ## Decoding and encoding again -/

theorem IsBytes.take {bs : List Nat} (h : IsBytes bs) (n : Nat) : IsBytes (bs.take n) :=
  fun b hb => h b (List.mem_of_mem_take hb)

theorem IsBytes.drop {bs : List Nat} (h : IsBytes bs) (n : Nat) : IsBytes (bs.drop n) :=
  fun b hb => h b (List.mem_of_mem_drop hb)

theorem bigEndian_BigEndianUint_1 (bs : List Nat) (hb : IsBytes bs) (hl : bs.length = 1) :
    bigEndian 1 (BigEndianUint bs) = bs := by
  match bs, hl with
  | [a], _ =>
    have ha : a < 256 := hb a (by simp)
    simp [bigEndian, BigEndianUint]
    omega

theorem bigEndian_BigEndianUint_4 (bs : List Nat) (hb : IsBytes bs) (hl : bs.length = 4) :
    bigEndian 4 (BigEndianUint bs) = bs := by
  match bs, hl with
  | [a, b, c, d], _ =>
    have ha : a < 256 := hb a (by simp)
    have hb' : b < 256 := hb b (by simp)
    have hc : c < 256 := hb c (by simp)
    have hd : d < 256 := hb d (by simp)
    simp [bigEndian, BigEndianUint, List.range_succ]
    omega

theorem bigEndian_BigEndianUint_8 (bs : List Nat) (hb : IsBytes bs) (hl : bs.length = 8) :
    bigEndian 8 (BigEndianUint bs) = bs := by
  match bs, hl with
  | [a, b, c, d, e, f, g, h], _ =>
    have ha : a < 256 := hb a (by simp)
    have hb' : b < 256 := hb b (by simp)
    have hc : c < 256 := hb c (by simp)
    have hd : d < 256 := hb d (by simp)
    have he : e < 256 := hb e (by simp)
    have hf : f < 256 := hb f (by simp)
    have hg : g < 256 := hb g (by simp)
    have hh : h < 256 := hb h (by simp)
    simp [bigEndian, BigEndianUint, List.range_succ]
    omega


theorem take_drop_length (r : List Nat) (off w : Nat) (h : off + w ≤ r.length) :
    ((r.drop off).take w).length = w := by
  rw [List.length_take, List.length_drop]; omega

theorem bigEndian_fieldAt_4 (r : List Nat) (hb : IsBytes r) (off : Nat)
    (h : off + 4 ≤ r.length) : bigEndian 4 (fieldAt r off 4) = (r.drop off).take 4 :=
  bigEndian_BigEndianUint_4 _ ((hb.drop off).take 4) (take_drop_length r off 4 h)

theorem bigEndian_fieldAt_8 (r : List Nat) (hb : IsBytes r) (off : Nat)
    (h : off + 8 ≤ r.length) : bigEndian 8 (fieldAt r off 8) = (r.drop off).take 8 :=
  bigEndian_BigEndianUint_8 _ ((hb.drop off).take 8) (take_drop_length r off 8 h)

theorem singleton_fieldAt_1 (r : List Nat) (off : Nat) (h : off + 1 ≤ r.length) :
    [fieldAt r off 1] = (r.drop off).take 1 := by
  rw [fieldAt, List.drop_eq_getElem_cons (by omega), List.take_succ_cons, List.take_zero]
  simp [BigEndianUint]

theorem decodeRegisters_flatMap (n : Nat) (r : List Nat) (hb : IsBytes r)
    (h : 4 * n ≤ r.length) :
    (decodeRegisters n r).flatMap (bigEndian 4) = r.take (4 * n) := by
  induction n generalizing r with
  | zero => simp [decodeRegisters]
  | succ n ih =>
    rw [decodeRegisters, List.flatMap_cons, ih _ (hb.drop 4) (by rw [List.length_drop]; omega),
      bigEndian_BigEndianUint_4 _ (hb.take 4) (by rw [List.length_take]; omega),
      show 4 * (n + 1) = 4 + 4 * n by omega, List.take_add]

theorem take_drop_glue (b : List Nat) (o w : Nat) :
    (b.drop o).take w ++ b.drop (o + w) = b.drop o := by
  rw [← List.drop_drop, List.take_append_drop]

theorem boolByte_ne_zero_eq (v : Nat) : boolByte (v != 0) = v ↔ v = 0 ∨ v = 1 := by
  by_cases h : v = 0
  · simp [h, boolByte]
  · have hv : (v != 0) = true := by simp [h]
    rw [hv]
    simp only [boolByte, if_true]
    omega

/-- The encoding of the record that the layout assigns to 166 bytes: the same
bytes, with the byte at offset 5 made canonical. -/
theorem serializeThread_decodedThread (b : List Nat) (hb : IsBytes b) (hl : b.length = 166) :
    serializeThread (decodedThread b) = canonicalBytes b := by
  have g34 : (b.drop 34).take 4 ++ b.drop 38 = b.drop 34 := take_drop_glue b 34 4
  have g30 : (b.drop 30).take 4 ++ b.drop 34 = b.drop 30 := take_drop_glue b 30 4
  have g26 : (b.drop 26).take 4 ++ b.drop 30 = b.drop 26 := take_drop_glue b 26 4
  have g22 : (b.drop 22).take 4 ++ b.drop 26 = b.drop 22 := take_drop_glue b 22 4
  have g14 : (b.drop 14).take 8 ++ b.drop 22 = b.drop 14 := take_drop_glue b 14 8
  have g10 : (b.drop 10).take 4 ++ b.drop 14 = b.drop 10 := take_drop_glue b 10 4
  have g6 : (b.drop 6).take 4 ++ b.drop 10 = b.drop 6 := take_drop_glue b 6 4
  have hregs : (decodeRegisters 32 (b.drop 38)).flatMap (bigEndian 4) = b.drop 38 := by
    rw [decodeRegisters_flatMap 32 _ (hb.drop 38) (by rw [List.length_drop]; omega)]
    exact List.take_of_length_le (by rw [List.length_drop]; omega)
  have h5 : fieldAt b 5 1 = b.getD 5 0 := fieldAt_one b 5 (by omega)
  have htake : b.take 5 = b.take 4 ++ (b.drop 4).take 1 := List.take_add b 4 1
  rw [serializeThread_eq]
  simp only [decodedThread]
  rw [hregs, bigEndian_fieldAt_4 b hb 34 (by omega), g34, bigEndian_fieldAt_4 b hb 30 (by omega),
    g30, bigEndian_fieldAt_4 b hb 26 (by omega), g26, bigEndian_fieldAt_4 b hb 22 (by omega),
    g22, bigEndian_fieldAt_8 b hb 14 (by omega), g14, bigEndian_fieldAt_4 b hb 10 (by omega),
    g10, bigEndian_fieldAt_4 b hb 6 (by omega), g6, bigEndian_fieldAt_4 b hb 0 (by omega),
    singleton_fieldAt_1 b 4 (by omega), h5, canonicalBytes,
    List.set_eq_take_append_cons_drop, if_pos (by omega), htake]
  simp

theorem set_getElem_same (l : List Nat) (i : Nat) (h : i < l.length) :
    l.set i (l.get ⟨i, h⟩) = l := by
  apply List.ext_getElem?
  intro j
  rw [List.getElem?_set]
  by_cases hij : i = j
  · subst hij
    simp [h]
  · simp [hij]

theorem canonicalBytes_eq_self (b : List Nat) (hl : b.length = 166) :
    canonicalBytes b = b ↔ b.getD 5 0 = 0 ∨ b.getD 5 0 = 1 := by
  have h5 : 5 < b.length := by omega
  have hget : b.getD 5 0 = b.get ⟨5, h5⟩ := by
    rw [List.getD_eq_getElem?_getD, List.getElem?_eq_getElem h5]; rfl
  rw [← boolByte_ne_zero_eq, canonicalBytes]
  constructor
  · intro h
    have := congrArg (fun l => l.getD 5 0) h
    simpa [List.getD_eq_getElem?_getD, List.getElem?_set, h5] using this
  · intro h
    rw [h, hget]
    exact set_getElem_same b 5 h5

theorem canonicalBytes_getD (b : List Nat) (hl : b.length = 166) :
    (canonicalBytes b).getD 5 0 = boolByte (b.getD 5 0 != 0) := by
  simp [canonicalBytes, List.getD_eq_getElem?_getD, List.getElem?_set, hl]

theorem canonicalBytes_isBytes (b : List Nat) (hb : IsBytes b) : IsBytes (canonicalBytes b) := by
  intro x hx
  rcases List.mem_or_eq_of_mem_set hx with h | h
  · exact hb x h
  · rw [h]; cases (b.getD 5 0 != 0) <;> simp [boolByte]


/-! ## The claims on the codec, continued -/

/-- C11. Canonical uniqueness of the encoder: `serializeThread` is injective on
thread states, so that two thread states with the same encoding are equal and
two different thread states never share an encoding. -/
theorem serializeThread_injective (r1 r2 : ThreadState) (h1 : r1.WellTyped)
    (h2 : r2.WellTyped) :
    (serializeThread r1 = serializeThread r2 → r1 = r2) ∧
    (r1 ≠ r2 → serializeThread r1 ≠ serializeThread r2) :=
  ⟨serializeThread_inj r1 r2 h1 h2, fun hne h => hne (serializeThread_inj r1 r2 h1 h2 h)⟩

theorem serializeThread_injective_witness :
    (scenarioThread 42).WellTyped ∧ (scenarioThread 43).WellTyped ∧
    scenarioThread 42 ≠ scenarioThread 43 ∧
    serializeThread (scenarioThread 42) ≠ serializeThread (scenarioThread 43) :=
  ⟨by decide, by decide, by decide,
    (serializeThread_injective (scenarioThread 42) (scenarioThread 43) (by decide)
      (by decide)).2 (by decide)⟩

/-- C12. Permissive boolean decode: on every input of at least 166 bytes the
decoded record has Exited true exactly when the byte at offset 5 is nonzero, and
Exited false exactly when that byte is zero. -/
theorem Deserialize_exited_permissive (t : ThreadState) (r : List Nat)
    (h : SERIALIZED_THREAD_SIZE ≤ r.length) :
    ((Deserialize t r).t.Exited = true ↔ r.getD 5 0 ≠ 0) ∧
    ((Deserialize t r).t.Exited = false ↔ r.getD 5 0 = 0) := by
  simp only [SERIALIZED_THREAD_SIZE] at h
  rw [Deserialize_value_Exited t r (by omega), fieldAt_one r 5 (by omega)]
  simp

set_option maxRecDepth 10000 in
theorem Deserialize_exited_permissive_witness :
    SERIALIZED_THREAD_SIZE ≤ ((serializeThread (scenarioThread 42)).set 5 255).length ∧
    ((serializeThread (scenarioThread 42)).set 5 255).getD 5 0 = 255 ∧
    (Deserialize boundaryThread ((serializeThread (scenarioThread 42)).set 5 255)).t.Exited =
      true :=
  ⟨by decide, by decide,
    (Deserialize_exited_permissive boundaryThread
      ((serializeThread (scenarioThread 42)).set 5 255) (by decide)).1.2 (by decide)⟩

/-- C13. Exact consumption: on a stream of at least 166 bytes `Deserialize`
succeeds, reads the first 166 bytes and leaves every later byte in the stream,
and the decoded record is a function of the first 166 bytes only: it is the
record that the layout assigns to those bytes, whatever the receiver held and
whatever follows in the stream, so two streams that agree on their first 166
bytes decode to equal records, also into two different receivers. -/
theorem Deserialize_exact_consumption (t : ThreadState) (r : List Nat)
    (ht : t.Registers.length = 32) (h : SERIALIZED_THREAD_SIZE ≤ r.length) :
    (Deserialize t r).err = none ∧
    (Deserialize t r).rest = r.drop SERIALIZED_THREAD_SIZE ∧
    r = r.take SERIALIZED_THREAD_SIZE ++ (Deserialize t r).rest ∧
    (Deserialize t r).t = decodedThread (r.take SERIALIZED_THREAD_SIZE) ∧
    ∀ (t2 : ThreadState) (r2 : List Nat), t2.Registers.length = 32 →
      SERIALIZED_THREAD_SIZE ≤ r2.length →
      r2.take SERIALIZED_THREAD_SIZE = r.take SERIALIZED_THREAD_SIZE →
      (Deserialize t2 r2).t = (Deserialize t r).t := by
  simp only [SERIALIZED_THREAD_SIZE] at h ⊢
  have hdec : (Deserialize t r).t = decodedThread (r.take 166) := by
    rw [Deserialize_ok t r ht h, decodedThread_take]
  refine ⟨(Deserialize_err t r).2 h, Deserialize_rest t r, ?_, hdec, ?_⟩
  · rw [Deserialize_rest, List.take_append_drop]
  · intro t2 r2 ht2 h2 heq
    rw [hdec, Deserialize_ok t2 r2 ht2 h2]
    show decodedThread r2 = decodedThread (r.take 166)
    rw [← decodedThread_take r2, heq]

set_option maxRecDepth 10000 in
theorem Deserialize_exact_consumption_witness :
    (Deserialize boundaryThread (serializeThread (scenarioThread 42) ++ [7, 8, 9])).err = none ∧
    (Deserialize boundaryThread (serializeThread (scenarioThread 42) ++ [7, 8, 9])).rest =
      [7, 8, 9] ∧
    (Deserialize boundaryThread (serializeThread (scenarioThread 42) ++ [7, 8, 9])).t =
      scenarioThread 42 ∧
    boundaryThread ≠ CreateEmptyThread 0 ∧
    (Deserialize (CreateEmptyThread 0) (serializeThread (scenarioThread 42) ++ [1])).t =
      (Deserialize boundaryThread (serializeThread (scenarioThread 42) ++ [7, 8, 9])).t :=
  ⟨(Deserialize_exact_consumption boundaryThread
      (serializeThread (scenarioThread 42) ++ [7, 8, 9]) (by decide) (by decide)).1,
    (Deserialize_exact_consumption boundaryThread
      (serializeThread (scenarioThread 42) ++ [7, 8, 9]) (by decide) (by decide)).2.1,
    (Deserialize_exact_consumption boundaryThread
      (serializeThread (scenarioThread 42) ++ [7, 8, 9]) (by decide)
      (by decide)).2.2.2.1.trans (by decide),
    by decide,
    (Deserialize_exact_consumption boundaryThread
      (serializeThread (scenarioThread 42) ++ [7, 8, 9]) (by decide) (by decide)).2.2.2.2
      (CreateEmptyThread 0) (serializeThread (scenarioThread 42) ++ [1]) (by decide)
      (by decide) (by decide)⟩

/-- C14. Encoder failure only from the sink: `Serialize` hands the writer the 166
bytes of `serializeThread t` in one call of `Write`, returns the error of that
call and nothing else, and so fails exactly when that call fails; with a writer
that never fails it fails for no thread state. -/
theorem Serialize_error_from_writer {σ ε : Type} (t : ThreadState) (out : Writer σ ε) (w : σ)
    (ht : t.WellTyped) :
    (Serialize t out w).1 = (out.Write w (serializeThread t)).2.1 ∧
    (Serialize t out w).2 = (out.Write w (serializeThread t)).2.2 ∧
    (serializeThread t).length = 166 ∧
    ((Serialize t out w).1 ≠ none ↔ (out.Write w (serializeThread t)).2.1 ≠ none) ∧
    ((∀ p, (out.Write w p).2.1 = none) → (Serialize t out w).1 = none) ∧
    (∀ e : List Nat → Option ε,
      (Serialize t (recordingWriter e) []).2 = [serializeThread t] ∧
      (Serialize t (recordingWriter e) []).1 = e (serializeThread t)) := by
  have h1 : (Serialize t out w).1 = (out.Write w (serializeThread t)).2.1 := rfl
  refine ⟨h1, rfl, serializeThread_length_of t ht.2.2.2.2.2.2.2.2.2.1, by rw [h1], ?_, ?_⟩
  · intro h; rw [h1]; exact h _
  · intro e; exact ⟨rfl, rfl⟩

theorem Serialize_error_from_writer_witness :
    boundaryThread.WellTyped ∧
    (Serialize boundaryThread (recordingWriter fun _ => some ()) []).1 = some () ∧
    (Serialize boundaryThread (recordingWriter fun _ => (none : Option Unit)) []).1 = none ∧
    (Serialize boundaryThread (recordingWriter fun _ => (none : Option Unit)) []).2 =
      [serializeThread boundaryThread] :=
  ⟨by decide,
    ((Serialize_error_from_writer boundaryThread
      (recordingWriter fun _ => (none : Option Unit)) [] (by decide)).2.2.2.2.2
      (fun _ => some ())).2,
    ((Serialize_error_from_writer boundaryThread
      (recordingWriter fun _ => (none : Option Unit)) [] (by decide)).2.2.2.2.2
      (fun _ => none)).2,
    ((Serialize_error_from_writer boundaryThread
      (recordingWriter fun _ => (none : Option Unit)) [] (by decide)).2.2.2.2.2
      (fun _ => none)).1⟩

/-- C15. Determinism of the empty thread: `CreateEmptyThread` has no input but the
constant `exec.FutexEmptyAddr`, and the encoding of its result is the one string
of 166 bytes that is zero everywhere except the bytes 6 to 9, the big-endian
sentinel, and the bytes 26 to 29, `00 00 00 04`. -/
theorem CreateEmptyThread_encoding (FutexEmptyAddr : Nat) :
    serializeThread (CreateEmptyThread FutexEmptyAddr) = emptyThreadBytes FutexEmptyAddr ∧
    (emptyThreadBytes FutexEmptyAddr).length = 166 ∧
    ((emptyThreadBytes FutexEmptyAddr).drop 6).take 4 = bigEndian 4 FutexEmptyAddr ∧
    ((emptyThreadBytes FutexEmptyAddr).drop 26).take 4 = [0, 0, 0, 4] := by
  have hregs : (List.replicate 32 0).flatMap (bigEndian 4) = List.replicate 128 0 := by
    decide
  have hbe : (bigEndian 4 FutexEmptyAddr).length = 4 := bigEndian_length 4 _
  refine ⟨?_, ?_, ?_, ?_⟩
  · rw [serializeThread_eq]
    simp only [CreateEmptyThread, hregs, emptyThreadBytes]
    have h0 : bigEndian 4 0 = [0, 0, 0, 0] := by decide
    have h4 : bigEndian 4 4 = [0, 0, 0, 4] := by decide
    have h8 : bigEndian 8 0 = [0, 0, 0, 0, 0, 0, 0, 0] := by decide
    rw [h0, h4, h8]
    simp [boolByte, List.replicate]
  · simp [emptyThreadBytes, hbe]
  · simp [emptyThreadBytes, hbe, List.drop_append_eq_append_drop,
      List.take_append_eq_append_take, List.drop_eq_nil_of_le, List.take_of_length_le]
  · simp [emptyThreadBytes, hbe, List.drop_append_eq_append_drop,
      List.take_append_eq_append_take, List.drop_eq_nil_of_le, List.take_of_length_le]

/-- C16. Witness size: `THREAD_WITNESS_SIZE` is 198, and the encoding of any
thread state followed by any 32 byte stack root has exactly that many bytes. -/
theorem thread_witness_size (t : ThreadState) (root : List Nat) (ht : t.WellTyped)
    (hroot : root.length = 32) :
    THREAD_WITNESS_SIZE = 198 ∧
    (serializeThread t ++ root).length = THREAD_WITNESS_SIZE := by
  refine ⟨rfl, ?_⟩
  rw [List.length_append, serializeThread_length_of t ht.2.2.2.2.2.2.2.2.2.1, hroot]
  rfl

theorem thread_witness_size_witness :
    (scenarioThread 42).WellTyped ∧ EmptyThreadsRoot.length = 32 ∧
    (serializeThread (scenarioThread 42) ++ EmptyThreadsRoot).length = THREAD_WITNESS_SIZE :=
  ⟨by decide, by decide,
    (thread_witness_size (scenarioThread 42) EmptyThreadsRoot (by decide) (by decide)).2⟩

/-- C17. Partial overwrite on truncated input: when `Deserialize` runs on fewer
than 166 bytes it fails, every field whose encoded bytes lie wholly within the
input holds its decoded value, and the first incomplete field and every field
after it hold what they held before the call. -/
theorem Deserialize_partial_overwrite (t : ThreadState) (r : List Nat)
    (ht : t.Registers.length = 32) (h : r.length < SERIALIZED_THREAD_SIZE) :
    (Deserialize t r).err ≠ none ∧
    ((4 ≤ r.length → (Deserialize t r).t.ThreadId = fieldAt r 0 4) ∧
      (r.length < 4 → (Deserialize t r).t.ThreadId = t.ThreadId)) ∧
    ((5 ≤ r.length → (Deserialize t r).t.ExitCode = fieldAt r 4 1) ∧
      (r.length < 5 → (Deserialize t r).t.ExitCode = t.ExitCode)) ∧
    ((6 ≤ r.length → (Deserialize t r).t.Exited = (fieldAt r 5 1 != 0)) ∧
      (r.length < 6 → (Deserialize t r).t.Exited = t.Exited)) ∧
    ((10 ≤ r.length → (Deserialize t r).t.FutexAddr = fieldAt r 6 4) ∧
      (r.length < 10 → (Deserialize t r).t.FutexAddr = t.FutexAddr)) ∧
    ((14 ≤ r.length → (Deserialize t r).t.FutexVal = fieldAt r 10 4) ∧
      (r.length < 14 → (Deserialize t r).t.FutexVal = t.FutexVal)) ∧
    ((22 ≤ r.length → (Deserialize t r).t.FutexTimeoutStep = fieldAt r 14 8) ∧
      (r.length < 22 → (Deserialize t r).t.FutexTimeoutStep = t.FutexTimeoutStep)) ∧
    ((26 ≤ r.length → (Deserialize t r).t.Cpu.PC = fieldAt r 22 4) ∧
      (r.length < 26 → (Deserialize t r).t.Cpu.PC = t.Cpu.PC)) ∧
    ((30 ≤ r.length → (Deserialize t r).t.Cpu.NextPC = fieldAt r 26 4) ∧
      (r.length < 30 → (Deserialize t r).t.Cpu.NextPC = t.Cpu.NextPC)) ∧
    ((34 ≤ r.length → (Deserialize t r).t.Cpu.LO = fieldAt r 30 4) ∧
      (r.length < 34 → (Deserialize t r).t.Cpu.LO = t.Cpu.LO)) ∧
    ((38 ≤ r.length → (Deserialize t r).t.Cpu.HI = fieldAt r 34 4) ∧
      (r.length < 38 → (Deserialize t r).t.Cpu.HI = t.Cpu.HI)) ∧
    (∀ j, j < 32 →
      (42 + 4 * j ≤ r.length →
        (Deserialize t r).t.Registers[j]? = some (fieldAt r (38 + 4 * j) 4)) ∧
      (r.length < 42 + 4 * j → (Deserialize t r).t.Registers[j]? = t.Registers[j]?)) := by
  refine ⟨?_, ⟨Deserialize_value_ThreadId t r, Deserialize_frame_ThreadId t r⟩,
    ⟨Deserialize_value_ExitCode t r, Deserialize_frame_ExitCode t r⟩,
    ⟨Deserialize_value_Exited t r, Deserialize_frame_Exited t r⟩,
    ⟨Deserialize_value_FutexAddr t r, Deserialize_frame_FutexAddr t r⟩,
    ⟨Deserialize_value_FutexVal t r, Deserialize_frame_FutexVal t r⟩,
    ⟨Deserialize_value_FutexTimeoutStep t r, Deserialize_frame_FutexTimeoutStep t r⟩,
    ⟨Deserialize_value_PC t r, Deserialize_frame_PC t r⟩,
    ⟨Deserialize_value_NextPC t r, Deserialize_frame_NextPC t r⟩,
    ⟨Deserialize_value_LO t r, Deserialize_frame_LO t r⟩,
    ⟨Deserialize_value_HI t r, Deserialize_frame_HI t r⟩,
    fun j hj => ⟨Deserialize_value_Registers t r j hj ht, Deserialize_frame_Registers t r j⟩⟩
  rw [Ne, Deserialize_err]
  simp only [SERIALIZED_THREAD_SIZE] at h
  omega

set_option maxRecDepth 10000 in
theorem Deserialize_partial_overwrite_witness :
    (Deserialize boundaryThread [0, 0, 0, 1, 7, 9, 8]).t =
      { boundaryThread with ThreadId := 1, ExitCode := 7 } ∧
    (Deserialize boundaryThread [0, 0, 0, 1, 7, 9, 8]).t.ExitCode = fieldAt [0, 0, 0, 1, 7, 9, 8] 4 1 ∧
    (Deserialize boundaryThread [0, 0, 0, 1, 7, 9, 8]).t.FutexAddr = boundaryThread.FutexAddr :=
  ⟨by decide,
    (Deserialize_partial_overwrite boundaryThread [0, 0, 0, 1, 7, 9, 8] (by decide)
      (by decide)).2.2.1.1 (by decide),
    (Deserialize_partial_overwrite boundaryThread [0, 0, 0, 1, 7, 9, 8] (by decide)
      (by decide)).2.2.2.2.1.2 (by decide)⟩

/-- C18. Which truncation error: on an input of fewer than 166 bytes
`Deserialize` returns `io.EOF` when the input ends exactly where a field begins
(at 0, 4, 5, 6, 10, 14, 22, 26, 30, 34 or at `38 + 4 * i` for `i` from 0 to 31)
and `io.ErrUnexpectedEOF` at every other length; both errors occur. -/
theorem Deserialize_truncation_error_kind (t : ThreadState) (r : List Nat)
    (h : r.length < SERIALIZED_THREAD_SIZE) :
    (Deserialize t r).err =
      some (if r.length ∈ fieldBoundaries then ReadError.EOF else ReadError.ErrUnexpectedEOF) ∧
    (Deserialize t []).err = some ReadError.EOF ∧
    (Deserialize t [0]).err = some ReadError.ErrUnexpectedEOF := by
  refine ⟨?_, ?_, ?_⟩
  · rw [Deserialize_errval]
    exact truncationError_fieldWidths _ h
  · rw [Deserialize_errval]; rfl
  · rw [Deserialize_errval]; rfl

set_option maxRecDepth 10000 in
theorem Deserialize_truncation_error_kind_witness :
    (Deserialize boundaryThread [0, 0, 0, 1, 7, 9]).err = some ReadError.EOF ∧
    (Deserialize boundaryThread [0, 0, 0, 1, 7, 9, 8]).err = some ReadError.ErrUnexpectedEOF :=
  ⟨(Deserialize_truncation_error_kind boundaryThread [0, 0, 0, 1, 7, 9] (by decide)).1,
    (Deserialize_truncation_error_kind boundaryThread [0, 0, 0, 1, 7, 9, 8] (by decide)).1⟩

/-- C19. Re-encoding canonicalises: for every string `b` of 166 bytes, encoding
the record decoded from `b` gives `b` with the byte at offset 5 replaced by 0x01
when it is nonzero and left 0x00 otherwise; so it gives `b` back exactly when
that byte is 0x00 or 0x01, and decoding and encoding once more changes nothing. -/
theorem serializeThread_Deserialize_canonical (t0 t1 : ThreadState) (b : List Nat)
    (h0 : t0.Registers.length = 32) (h1 : t1.Registers.length = 32) (hb : IsBytes b)
    (hl : b.length = SERIALIZED_THREAD_SIZE) :
    serializeThread (Deserialize t0 b).t = canonicalBytes b ∧
    (serializeThread (Deserialize t0 b).t = b ↔ b.getD 5 0 = 0 ∨ b.getD 5 0 = 1) ∧
    serializeThread (Deserialize t1 (serializeThread (Deserialize t0 b).t)).t =
      serializeThread (Deserialize t0 b).t := by
  simp only [SERIALIZED_THREAD_SIZE] at hl
  have e : serializeThread (Deserialize t0 b).t = canonicalBytes b := by
    rw [Deserialize_ok t0 b h0 (by omega)]
    exact serializeThread_decodedThread b hb hl
  have hcl : (canonicalBytes b).length = 166 := by simp [canonicalBytes, hl]
  refine ⟨e, by rw [e]; exact canonicalBytes_eq_self b hl, ?_⟩
  rw [e, Deserialize_ok t1 _ h1 (by omega)]
  show serializeThread (decodedThread (canonicalBytes b)) = canonicalBytes b
  rw [serializeThread_decodedThread _ (canonicalBytes_isBytes b hb) hcl,
    canonicalBytes_eq_self _ hcl, canonicalBytes_getD b hl]
  cases (b.getD 5 0 != 0) <;> simp [boolByte]

set_option maxRecDepth 10000 in
theorem serializeThread_Deserialize_canonical_witness :
    ((serializeThread (scenarioThread 42)).set 5 255).getD 5 0 = 255 ∧
    serializeThread
        (Deserialize boundaryThread ((serializeThread (scenarioThread 42)).set 5 255)).t =
      (serializeThread (scenarioThread 42)).set 5 1 :=
  ⟨by decide,
    (serializeThread_Deserialize_canonical boundaryThread boundaryThread
      ((serializeThread (scenarioThread 42)).set 5 255) (by decide) (by decide) (by decide)
      (by decide)).1.trans (by decide)⟩

/-- C20. Full overwrite on success: on an input of at least 166 bytes, decoding
into any two receivers leaves them equal; nothing of the prior state of the
receiver survives. -/
theorem Deserialize_full_overwrite (s1 s2 : ThreadState) (r : List Nat)
    (h1 : s1.Registers.length = 32) (h2 : s2.Registers.length = 32)
    (h : SERIALIZED_THREAD_SIZE ≤ r.length) :
    (Deserialize s1 r).t = (Deserialize s2 r).t ∧ (Deserialize s1 r).t = decodedThread r := by
  rw [Deserialize_ok s1 r h1 h, Deserialize_ok s2 r h2 h]
  exact ⟨rfl, rfl⟩

set_option maxRecDepth 10000 in
theorem Deserialize_full_overwrite_witness :
    boundaryThread ≠ CreateEmptyThread 0 ∧
    (Deserialize boundaryThread (serializeThread (scenarioThread 42))).t =
      (Deserialize (CreateEmptyThread 0) (serializeThread (scenarioThread 42))).t :=
  ⟨by decide,
    (Deserialize_full_overwrite boundaryThread (CreateEmptyThread 0)
      (serializeThread (scenarioThread 42)) (by decide) (by decide) (by decide)).1⟩

end Multithreaded
